import Mathlib

/-!
# Svc::BufferManagerComponentImpl

A shallow embedding of `Svc/BufferManager/BufferManagerComponentImpl.cpp`:
the component state, `setup`, `bufferGetCallee_handler` (acquire) and
`bufferSendIn_handler` (release), followed by theorems about them.

Conventions of the embedding.

* `U32` and `NATIVE_UINT_TYPE` (fprime's `unsigned int`) are 32-bit words:
  values are natural numbers and every arithmetic result stored in such a
  variable is reduced modulo `U32_MOD`.
* Pointers (`U8*`, `void*`) are natural-number addresses; the null pointer
  is `0`. The source casts pointers to `U64` and back; both casts are the
  identity here and pointer additions are not reduced.
* `FW_ASSERT` failure ends the call: the outcome `assertFailed` carries the
  state as it was when the assertion was evaluated.
* Telemetry and event calls of the component base class (`tlmWrite_*`,
  `log_*`) and the call of the allocator append an `Emission` to the
  `emitted` list of the state.
* `sizeof(AllocatedBuffer)` is a parameter `S` of `setup`.
* `BufferBins` is the array `bins[MAX_NUM_BINS]`, given as the list of its
  entries in index order; `MAX_NUM_BINS` is the length of that list.
-/

namespace Fw

/-- The class `Fw::Buffer`: manager id, buffer id, data address, size. -/
structure Buffer where
  managerID : Nat
  bufferID : Nat
  data : Nat
  size : Nat
  deriving DecidableEq, Repr

/-- The default-constructed `Fw::Buffer()`: the empty buffer. -/
def Buffer.empty : Buffer := ⟨0, 0, 0, 0⟩

/-- The call `setsize` of `Fw::Buffer`. -/
def Buffer.setsize (b : Buffer) (size : Nat) : Buffer := { b with size := size }

/-- The interface `Fw::MemAllocator::allocate(identifier, size, recoverable)`:
from the identifier and the requested size to the returned address and the
size actually allocated (written back through the `size` reference). -/
abbrev MemAllocator := Nat → Nat → Nat × Nat

end Fw

namespace Svc

set_option linter.unusedVariables false

/-- Modulus of the 32-bit unsigned types `U32` and `NATIVE_UINT_TYPE`. -/
def U32_MOD : Nat := 4294967296

/-- The struct `BufferBin`: one bin of the user configuration. -/
structure BufferBin where
  bufferSize : Nat
  numBuffers : Nat
  deriving DecidableEq, Repr

/-- The struct `BufferBins`: the array `bins[MAX_NUM_BINS]`. -/
abbrev BufferBins := List BufferBin

/-- The struct `AllocatedBuffer`: one tracked buffer (slot). -/
structure AllocatedBuffer where
  buff : Fw.Buffer
  memory : Nat
  size : Nat
  allocated : Bool
  deriving DecidableEq, Repr

/-- Calls made to collaborators: events and telemetry of the component base
class, and the request to the memory allocator. -/
inductive Emission where
  | allocate (identifier size : Nat)
  | log_WARNING_HI_ZeroSizeBuffer
  | log_WARNING_HI_NoBuffsAvailable (size : Nat)
  | tlmWrite_EmptyBuffs (val : Nat)
  | tlmWrite_CurrBuffs (val : Nat)
  | tlmWrite_HiBuffs (val : Nat)
  | tlmWrite_TotalBuffs (val : Nat)
  | tlmWrite_NoBuffs (val : Nat)
  deriving DecidableEq, Repr

/-- Member variables of `BufferManagerComponentImpl`. `m_buffers` is the
array of tracking structs that `m_buffers` points to. `m_allocator`, a
pointer that the handlers never read, is left out. `emitted` records the
calls to collaborators made so far. -/
structure BufferManagerComponentImpl where
  m_setup : Bool
  m_mgrID : Nat
  m_buffers : List AllocatedBuffer
  m_identifier : Nat
  m_bufferBins : BufferBins
  m_numStructs : Nat
  m_highWater : Nat
  m_currBuffs : Nat
  m_noBuffs : Nat
  m_emptyBuffs : Nat
  emitted : List Emission
  deriving DecidableEq, Repr

/-- Result of a call: it returned (`done`, with the new state and the
return value), or an `FW_ASSERT` failed (`assertFailed`, with the state at
that point). -/
inductive Outcome (α : Type) where
  | done (st : BufferManagerComponentImpl) (ret : α)
  | assertFailed (st : BufferManagerComponentImpl)
  deriving DecidableEq, Repr

/-- The component state that a call leaves. -/
def Outcome.state {α : Type} : Outcome α → BufferManagerComponentImpl
  | .done st _ => st
  | .assertFailed st => st

/-- The constructor (lines 26-42). -/
def construct : BufferManagerComponentImpl :=
  { m_setup := false
    m_mgrID := 0
    m_buffers := []
    m_identifier := 0
    m_bufferBins := []
    m_numStructs := 0
    m_highWater := 0
    m_currBuffs := 0
    m_noBuffs := 0
    m_emptyBuffs := 0
    emitted := [] }

/-- Handler `bufferSendIn_handler` (lines 62-92): a buffer comes back.
The read `m_buffers[id]` follows the check `id < m_numStructs`; for an index
at which no tracking struct has been written (there is none in a set-up
pool, see `Inv.numLe`) the call ends like a failed assertion. -/
def bufferSendIn_handler (st : BufferManagerComponentImpl) (portNum : Int)
    (fwBuffer : Fw.Buffer) : Outcome Unit :=
  if st.m_setup = false then .assertFailed st
  else if fwBuffer.size = 0 then
    let emptyBuffs := (st.m_emptyBuffs + 1) % U32_MOD
    .done { st with
              m_emptyBuffs := emptyBuffs
              emitted := st.emitted ++
                [Emission.log_WARNING_HI_ZeroSizeBuffer, Emission.tlmWrite_EmptyBuffs emptyBuffs] } ()
  else
    let id := fwBuffer.bufferID
    if ¬ id < st.m_numStructs then .assertFailed st
    else if fwBuffer.managerID ≠ st.m_mgrID then .assertFailed st
    else
      match st.m_buffers[id]? with
      | none => .assertFailed st
      | some slot =>
        if slot.allocated ≠ true then .assertFailed st
        else if fwBuffer.data ≠ slot.memory then .assertFailed st
        else if ¬ fwBuffer.size ≤ slot.size then .assertFailed st
        else
          let currBuffs := (st.m_currBuffs + U32_MOD - 1) % U32_MOD
          .done { st with
                    m_buffers := st.m_buffers.set id
                      { slot with allocated := false, buff := slot.buff.setsize slot.size }
                    m_currBuffs := currBuffs
                    emitted := st.emitted ++ [Emission.tlmWrite_CurrBuffs currBuffs] } ()

/-- The scan of `bufferGetCallee_handler` (lines 104-105, 114): starting at
index `buff` with `remaining = m_numStructs - buff` indices to visit, the
first index whose struct is not allocated and has `size < struct.size`,
with that struct. An index at which no tracking struct has been written is
passed over. -/
def findBuffer (m_buffers : List AllocatedBuffer) (size : Nat) :
    Nat → Nat → Option (Nat × AllocatedBuffer)
  | _, 0 => none
  | buff, remaining + 1 =>
    match m_buffers[buff]? with
    | none => findBuffer m_buffers size (buff + 1) remaining
    | some slot =>
      if slot.allocated = false ∧ size < slot.size then some (buff, slot)
      else findBuffer m_buffers size (buff + 1) remaining

/-- Handler `bufferGetCallee_handler` (lines 94-121): a buffer is asked for. -/
def bufferGetCallee_handler (st : BufferManagerComponentImpl) (portNum : Int)
    (size : Nat) : Outcome Fw.Buffer :=
  if st.m_setup = false then .assertFailed st
  else
    let st1 : BufferManagerComponentImpl :=
      { st with emitted := st.emitted ++ [Emission.tlmWrite_TotalBuffs st.m_numStructs] }
    match findBuffer st1.m_buffers size 0 st1.m_numStructs with
    | some (buff, slot) =>
      let currBuffs := (st1.m_currBuffs + 1) % U32_MOD
      let st2 : BufferManagerComponentImpl :=
        { st1 with
            m_buffers := st1.m_buffers.set buff { slot with allocated := true }
            m_currBuffs := currBuffs
            emitted := st1.emitted ++ [Emission.tlmWrite_CurrBuffs currBuffs] }
      if st2.m_currBuffs > st2.m_highWater then
        .done { st2 with
                  m_highWater := st2.m_currBuffs
                  emitted := st2.emitted ++ [Emission.tlmWrite_HiBuffs st2.m_currBuffs] } slot.buff
      else .done st2 slot.buff
    | none =>
      let noBuffs := (st1.m_noBuffs + 1) % U32_MOD
      .done { st1 with
                m_noBuffs := noBuffs
                emitted := st1.emitted ++
                  [Emission.log_WARNING_HI_NoBuffsAvailable size, Emission.tlmWrite_NoBuffs noBuffs] }
        Fw.Buffer.empty

/-- The local variables `memorySize` and `m_numStructs` of the first loop
of `setup`. -/
structure SizeTotals where
  memorySize : Nat
  numStructs : Nat
  deriving DecidableEq, Repr

/-- Body of the first loop of `setup` (lines 143-148) for one bin. The
product `bufferSize * numBuffers` is computed in `NATIVE_UINT_TYPE`; the
sum with `sizeof(AllocatedBuffer) * numBuffers` (computed in `size_t`, which
is at least as wide) is stored back into the `NATIVE_UINT_TYPE` variable
`memorySize`, which reduces it modulo `U32_MOD`. -/
def sizeStep (S : Nat) (acc : SizeTotals) (bin : BufferBin) : SizeTotals :=
  if bin.numBuffers ≠ 0 then
    { memorySize :=
        (acc.memorySize
          + ((bin.bufferSize * bin.numBuffers) % U32_MOD + S * bin.numBuffers)) % U32_MOD
      numStructs := (acc.numStructs + bin.numBuffers) % U32_MOD }
  else acc

/-- The first loop of `setup` (lines 139-149). -/
def computeSizes (S : Nat) (bins : BufferBins) : SizeTotals :=
  bins.foldl (sizeStep S) ⟨0, 0⟩

/-- The local variables `currStruct` and `bufferMem` of the second loop of
`setup`, with the tracking structs written so far. -/
structure InitCursor where
  currStruct : Nat
  bufferMem : Nat
  buffers : List AllocatedBuffer
  deriving DecidableEq, Repr

/-- The write `m_buffers[i] = x` into the array of tracking structs: index
`i` is overwritten when it has been written before and is the next new
entry otherwise. -/
def storeAt (buffers : List AllocatedBuffer) (i : Nat) (x : AllocatedBuffer) :
    List AllocatedBuffer :=
  if i < buffers.length then buffers.set i x else buffers ++ [x]

/-- Body of the innermost loop of `setup` (lines 172-178): one entry. -/
def initEntry (mgrID bufferSize : Nat) (c : InitCursor) : InitCursor :=
  { currStruct := (c.currStruct + 1) % U32_MOD
    bufferMem := c.bufferMem + bufferSize
    buffers := storeAt c.buffers c.currStruct
      { buff := ⟨mgrID, c.currStruct, c.bufferMem, bufferSize⟩
        allocated := false
        memory := c.bufferMem
        size := bufferSize } }

/-- The innermost loop of `setup` (line 169), with `n` iterations left. -/
def initEntries (mgrID bufferSize : Nat) : Nat → InitCursor → InitCursor
  | 0, c => c
  | n + 1, c => initEntries mgrID bufferSize n (initEntry mgrID bufferSize c)

/-- Body of the second loop of `setup` (lines 168-180) for one bin. -/
def initBin (mgrID : Nat) (c : InitCursor) (bin : BufferBin) : InitCursor :=
  if bin.numBuffers ≠ 0 then initEntries mgrID bin.bufferSize bin.numBuffers c else c

/-- The call `setup` (lines 123-188). `S` is `sizeof(AllocatedBuffer)`. -/
def setup (S : Nat) (st : BufferManagerComponentImpl) (mgrID memID : Nat)
    (allocator : Fw.MemAllocator) (bins : BufferBins) : Outcome Unit :=
  let sizes := computeSizes S bins
  let memorySize := sizes.memorySize
  let st1 : BufferManagerComponentImpl :=
             { st with
                 m_mgrID := mgrID
                 m_identifier := memID
                 m_bufferBins := bins
                 m_numStructs := sizes.numStructs
                 emitted := st.emitted ++ [Emission.allocate memID memorySize] }
  let memory := (allocator memID memorySize).1
  let allocatedSize := (allocator memID memorySize).2
  if memory = 0 then .assertFailed st1
  else if memorySize ≠ allocatedSize then .assertFailed st1
  else
    let c := bins.foldl (initBin mgrID) ⟨0, memory + st1.m_numStructs * S, []⟩
    let st2 : BufferManagerComponentImpl := { st1 with m_buffers := c.buffers }
    if c.bufferMem ≠ memory + memorySize then .assertFailed st2
    else if c.currStruct ≠ st2.m_numStructs then .assertFailed st2
    else .done { st2 with m_setup := true } ()

/-- The pool states after a completed `setup` on a freshly constructed
component and any finite sequence of handler calls that returned, each
with the list of states passed through since (newest first; the
constructed state is the oldest). -/
inductive Run : BufferManagerComponentImpl → List BufferManagerComponentImpl → Prop where
  | setup (S mgrID memID : Nat) (allocator : Fw.MemAllocator) (bins : BufferBins)
      (st : BufferManagerComponentImpl)
      (h : Svc.setup S construct mgrID memID allocator bins = .done st ()) :
      Run st [st, construct]
  | acquire (st st1 : BufferManagerComponentImpl) (hist : List BufferManagerComponentImpl)
      (portNum : Int) (size : Nat) (ret : Fw.Buffer)
      (hrun : Run st hist)
      (h : bufferGetCallee_handler st portNum size = .done st1 ret) :
      Run st1 (st1 :: hist)
  | release (st st1 : BufferManagerComponentImpl) (hist : List BufferManagerComponentImpl)
      (portNum : Int) (fwBuffer : Fw.Buffer)
      (hrun : Run st hist)
      (h : bufferSendIn_handler st portNum fwBuffer = .done st1 ()) :
      Run st1 (st1 :: hist)

/-- A set-up pool state: one reached by a run. -/
def Reachable (st : BufferManagerComponentImpl) : Prop := ∃ hist, Run st hist

/-- Slot `i` of the pool: the tracking struct at index `i < m_numStructs`. -/
def slot? (st : BufferManagerComponentImpl) (i : Nat) : Option AllocatedBuffer :=
  if i < st.m_numStructs then st.m_buffers[i]? else none

/-- Number of tracking structs in a list whose `allocated` flag is set. -/
def countAllocated (l : List AllocatedBuffer) : Nat :=
  (l.filter (fun b => b.allocated)).length

/-- Number of slots whose `allocated` flag is set. -/
def numAllocated (st : BufferManagerComponentImpl) : Nat :=
  countAllocated (st.m_buffers.take st.m_numStructs)

/-- An allocator that grants every request in full at address `base`. -/
def fixedAllocator (base : Nat) : Fw.MemAllocator := fun _ size => (base, size)

/-- The bin configuration `[(8,2),(16,3)]` of the examples. -/
def exampleBins : BufferBins := [⟨8, 2⟩, ⟨16, 3⟩]

/-- The example pool: `setup` on a constructed component with the bins
`[(8,2),(16,3)]`, manager id 7, tracking structs of 40 bytes and a region
granted at address 1000. -/
def examplePool : BufferManagerComponentImpl :=
  (setup 40 construct 7 0 (fixedAllocator 1000) exampleBins).state

/-- The example pool after one request of size 5. -/
def examplePool1 : BufferManagerComponentImpl :=
  (bufferGetCallee_handler examplePool 0 5).state

/-- The example pool after two requests of size 5. -/
def examplePool2 : BufferManagerComponentImpl :=
  (bufferGetCallee_handler examplePool1 0 5).state

/-- The example pool after two requests of size 5 and the return of the
first buffer, shrunk to size 3 by its user. -/
def examplePool3 : BufferManagerComponentImpl :=
  (bufferSendIn_handler examplePool2 0 ⟨7, 0, 1200, 3⟩).state

/-- The sum over the bins of `numBuffers`: the number `N` of the
specification. -/
def totalBuffers (bins : BufferBins) : Nat :=
  (bins.map (fun b => b.numBuffers)).sum

/-- The sum over the bins of `bufferSize * numBuffers`, plus
`N * sizeof(AllocatedBuffer)`: the total memory of the specification. -/
def totalBytes (S : Nat) (bins : BufferBins) : Nat :=
  (bins.map (fun b => b.bufferSize * b.numBuffers)).sum + totalBuffers bins * S

/-- A bin configuration whose payload size exceeds 32 bits: two buffers of
`2^31` bytes. -/
def overflowBins : BufferBins := [⟨2147483648, 2⟩]

/-- A bin configuration whose buffer count exceeds 32 bits: `2^32 - 1`
buffers and one more, all of size zero. -/
def overflowCountBins : BufferBins := [⟨0, 4294967295⟩, ⟨0, 1⟩]

/-- The state that `bufferGetCallee_handler` leaves when index `i`, holding
`b`, is handed out. -/
def acquired (st : BufferManagerComponentImpl) (i : Nat) (b : AllocatedBuffer) :
    BufferManagerComponentImpl :=
  let currBuffs := (st.m_currBuffs + 1) % U32_MOD
  { st with
      m_buffers := st.m_buffers.set i { b with allocated := true }
      m_currBuffs := currBuffs
      m_highWater := if currBuffs > st.m_highWater then currBuffs else st.m_highWater
      emitted :=
        if currBuffs > st.m_highWater then
          st.emitted ++ [Emission.tlmWrite_TotalBuffs st.m_numStructs] ++
            [Emission.tlmWrite_CurrBuffs currBuffs] ++ [Emission.tlmWrite_HiBuffs currBuffs]
        else
          st.emitted ++ [Emission.tlmWrite_TotalBuffs st.m_numStructs] ++
            [Emission.tlmWrite_CurrBuffs currBuffs] }

/-- The state that `bufferGetCallee_handler` leaves when no buffer fits. -/
def refused (st : BufferManagerComponentImpl) (size : Nat) : BufferManagerComponentImpl :=
  { st with
      m_noBuffs := (st.m_noBuffs + 1) % U32_MOD
      emitted := st.emitted ++ [Emission.tlmWrite_TotalBuffs st.m_numStructs] ++
        [Emission.log_WARNING_HI_NoBuffsAvailable size,
         Emission.tlmWrite_NoBuffs ((st.m_noBuffs + 1) % U32_MOD)] }

/-- The state that `bufferSendIn_handler` leaves when the buffer of slot
`i`, holding `b`, is taken back. -/
def released (st : BufferManagerComponentImpl) (i : Nat) (b : AllocatedBuffer) :
    BufferManagerComponentImpl :=
  { st with
      m_buffers := st.m_buffers.set i
        { b with allocated := false, buff := b.buff.setsize b.size }
      m_currBuffs := (st.m_currBuffs + U32_MOD - 1) % U32_MOD
      emitted := st.emitted ++
        [Emission.tlmWrite_CurrBuffs ((st.m_currBuffs + U32_MOD - 1) % U32_MOD)] }

/-- The state that `bufferSendIn_handler` leaves for a buffer of size zero. -/
def warned (st : BufferManagerComponentImpl) : BufferManagerComponentImpl :=
  { st with
      m_emptyBuffs := (st.m_emptyBuffs + 1) % U32_MOD
      emitted := st.emitted ++
        [Emission.log_WARNING_HI_ZeroSizeBuffer,
         Emission.tlmWrite_EmptyBuffs ((st.m_emptyBuffs + 1) % U32_MOD)] }

/-- The local variables of the second loop of `setup` when it ends, for a
region that starts at `memory`. -/
def finalCursor (S mgrID memory : Nat) (bins : BufferBins) : InitCursor :=
  bins.foldl (initBin mgrID) ⟨0, memory + (computeSizes S bins).numStructs * S, []⟩

/-- The five tracking structs that `setup` writes for `exampleBins` when the
payload region starts at address `a`. -/
def exampleSlots (mgrID a : Nat) : List AllocatedBuffer :=
  [ ⟨⟨mgrID, 0, a, 8⟩, a, 8, false⟩,
    ⟨⟨mgrID, 1, a + 8, 8⟩, a + 8, 8, false⟩,
    ⟨⟨mgrID, 2, a + 16, 16⟩, a + 16, 16, false⟩,
    ⟨⟨mgrID, 3, a + 32, 16⟩, a + 32, 16, false⟩,
    ⟨⟨mgrID, 4, a + 48, 16⟩, a + 48, 16, false⟩ ]

/-- The capacities of the slots in the order the specification gives them:
bin after bin in declaration order, `numBuffers` times `bufferSize` each. -/
def slotCapacities (bins : BufferBins) : List Nat :=
  bins.flatMap (fun b => List.replicate b.numBuffers b.bufferSize)

/-- The slot table of the specification for a list of capacities: ids count
up from `id`, each slot is unallocated, and its memory starts where the
memory of the slot before ends, the first at `offset`. -/
def specSlots (mgrID : Nat) : List Nat → Nat → Nat → List AllocatedBuffer
  | [], _, _ => []
  | capacity :: rest, id, offset =>
    { buff := ⟨mgrID, id, offset, capacity⟩
      memory := offset
      size := capacity
      allocated := false } :: specSlots mgrID rest (id + 1) (offset + capacity)

/-- The slot table of the specification for a bin configuration whose
payload memory starts at `offset`. -/
def specSlotTable (mgrID : Nat) (bins : BufferBins) (offset : Nat) : List AllocatedBuffer :=
  specSlots mgrID (slotCapacities bins) 0 offset

/-- The sum over the bins of `bufferSize * numBuffers`: the payload bytes. -/
def payloadBytes (bins : BufferBins) : Nat :=
  (bins.map (fun b => b.bufferSize * b.numBuffers)).sum

/-- The bins with a non-zero count are declared in ascending order of
`bufferSize`. -/
def ascendingBins (bins : BufferBins) : Prop :=
  ((bins.filter (fun b => b.numBuffers ≠ 0)).map (fun b => b.bufferSize)).Pairwise
    (fun x y => x ≤ y)

/-- A bin configuration that is not in ascending order: `[(16,1),(8,1)]`. -/
def unsortedBins : BufferBins := [⟨16, 1⟩, ⟨8, 1⟩]

/-- The pool set up with `unsortedBins`, manager id 7, tracking structs of 40
bytes and a region granted at address 1000. -/
def unsortedPool : BufferManagerComponentImpl :=
  (setup 40 construct 7 0 (fixedAllocator 1000) unsortedBins).state

/-- What a completed `setup` establishes and the handlers keep. -/
structure Inv (st : BufferManagerComponentImpl) : Prop where
  isSetup : st.m_setup = true
  numLe : st.m_numStructs ≤ st.m_buffers.length
  numLt : st.m_numStructs < U32_MOD
  handle : ∀ (i : Nat) (b : AllocatedBuffer), st.m_buffers[i]? = some b →
    b.buff.bufferID = i ∧ b.buff.managerID = st.m_mgrID ∧ b.buff.data = b.memory
      ∧ b.buff.size = b.size
  allocLt : ∀ (i : Nat) (b : AllocatedBuffer), st.m_buffers[i]? = some b →
    b.allocated = true → i < st.m_numStructs
  curr : st.m_currBuffs = numAllocated st

/-- What the second loop of `setup` keeps true of its local variables. -/
structure CursorInv (mgrID : Nat) (c : InitCursor) : Prop where
  le : c.currStruct ≤ c.buffers.length
  lt : c.currStruct < U32_MOD
  written : ∀ (i : Nat) (b : AllocatedBuffer), c.buffers[i]? = some b →
    b.allocated = false ∧ b.buff.bufferID = i ∧ b.buff.managerID = mgrID
      ∧ b.buff.data = b.memory ∧ b.buff.size = b.size

/-! ## Lemmas -/

theorem U32_MOD_pos : 0 < U32_MOD := by decide

theorem storeAt_getElem? (l : List AllocatedBuffer) (i j : Nat) (x : AllocatedBuffer)
    (hi : i ≤ l.length) :
    (storeAt l i x)[j]? = if j = i then some x else l[j]? := by
  unfold storeAt
  split
  · rename_i h
    rw [List.getElem?_set]
    by_cases hji : j = i
    · subst hji; simp [h]
    · have : ¬ i = j := fun e => hji e.symm
      simp [hji, this]
  · rename_i h
    have hil : i = l.length := by omega
    subst hil
    rw [List.getElem?_append]
    by_cases hji : j = l.length
    · subst hji; simp
    · simp only [hji, if_false]
      split
      · rfl
      · rename_i h2
        have : l.length ≤ j := by omega
        rw [List.getElem?_eq_none this]
        have h3 : 1 ≤ j - l.length := by omega
        exact List.getElem?_eq_none (by simpa using h3)

theorem storeAt_length (l : List AllocatedBuffer) (i : Nat) (x : AllocatedBuffer)
    (hi : i ≤ l.length) : i + 1 ≤ (storeAt l i x).length := by
  unfold storeAt
  split
  · rename_i h; simpa using h
  · simp; omega

theorem initEntry_inv (mgrID bufferSize : Nat) (c : InitCursor) (h : CursorInv mgrID c) :
    CursorInv mgrID (initEntry mgrID bufferSize c) := by
  refine ⟨?_, ?_, ?_⟩
  · have h1 := storeAt_length c.buffers c.currStruct
      { buff := ⟨mgrID, c.currStruct, c.bufferMem, bufferSize⟩
        allocated := false
        memory := c.bufferMem
        size := bufferSize } h.le
    have h2 : (c.currStruct + 1) % U32_MOD ≤ c.currStruct + 1 := Nat.mod_le _ _
    simp only [initEntry]
    omega
  · exact Nat.mod_lt _ U32_MOD_pos
  · intro i b hb
    simp only [initEntry] at hb
    rw [storeAt_getElem? _ _ _ _ h.le] at hb
    split at hb
    · rename_i hi
      cases hb
      simp [hi]
    · exact h.written i b hb

theorem initEntries_inv (mgrID bufferSize : Nat) (n : Nat) (c : InitCursor)
    (h : CursorInv mgrID c) : CursorInv mgrID (initEntries mgrID bufferSize n c) := by
  induction n generalizing c with
  | zero => exact h
  | succ n ih => exact ih _ (initEntry_inv mgrID bufferSize c h)

theorem initBin_inv (mgrID : Nat) (c : InitCursor) (bin : BufferBin)
    (h : CursorInv mgrID c) : CursorInv mgrID (initBin mgrID c bin) := by
  unfold initBin
  split
  · exact initEntries_inv _ _ _ _ h
  · exact h

theorem foldl_initBin_inv (mgrID : Nat) (bins : BufferBins) (c : InitCursor)
    (h : CursorInv mgrID c) : CursorInv mgrID (bins.foldl (initBin mgrID) c) := by
  induction bins generalizing c with
  | nil => exact h
  | cons bin rest ih => exact ih _ (initBin_inv mgrID c bin h)

theorem countAllocated_le (l : List AllocatedBuffer) : countAllocated l ≤ l.length :=
  List.length_filter_le _ _

theorem countAllocated_eq_zero (l : List AllocatedBuffer)
    (h : ∀ (i : Nat) (b : AllocatedBuffer), l[i]? = some b → b.allocated = false) :
    countAllocated l = 0 := by
  unfold countAllocated
  rw [List.length_eq_zero, List.filter_eq_nil_iff]
  intro b hb
  obtain ⟨i, hi, rfl⟩ := List.getElem_of_mem hb
  have := h i l[i] (List.getElem?_eq_getElem hi)
  simp [this]

theorem countAllocated_set (l : List AllocatedBuffer) (i : Nat) (b x : AllocatedBuffer)
    (hb : l[i]? = some b) :
    countAllocated (l.set i x) + (if b.allocated then 1 else 0)
      = countAllocated l + (if x.allocated then 1 else 0) := by
  induction l generalizing i with
  | nil => simp at hb
  | cons a rest ih =>
    cases i with
    | zero =>
      simp at hb
      subst hb
      simp only [List.set_cons_zero, countAllocated, List.filter_cons]
      cases a.allocated <;> cases x.allocated <;> simp
    | succ i =>
      simp at hb
      have := ih i hb
      simp only [List.set_cons_succ, countAllocated, List.filter_cons] at this ⊢
      cases a.allocated <;> simp <;> omega

theorem numAllocated_le (st : BufferManagerComponentImpl) :
    numAllocated st ≤ st.m_numStructs := by
  unfold numAllocated
  have := countAllocated_le (st.m_buffers.take st.m_numStructs)
  simp at this
  omega

theorem findBuffer_some (l : List AllocatedBuffer) (s : Nat) (k buff i : Nat)
    (b : AllocatedBuffer) (h : findBuffer l s buff k = some (i, b)) :
    buff ≤ i ∧ i < buff + k ∧ l[i]? = some b ∧ b.allocated = false ∧ s < b.size
      ∧ ∀ (j : Nat) (c : AllocatedBuffer), buff ≤ j → j < i → l[j]? = some c →
          ¬ (c.allocated = false ∧ s < c.size) := by
  induction k generalizing buff with
  | zero => simp [findBuffer] at h
  | succ k ih =>
    unfold findBuffer at h
    split at h
    · rename_i hnone
      obtain ⟨h1, h2, h3, h4, h5, h6⟩ := ih (buff + 1) h
      refine ⟨by omega, by omega, h3, h4, h5, ?_⟩
      intro j c hj hji hc
      by_cases hjb : j = buff
      · subst hjb; rw [hnone] at hc; cases hc
      · exact h6 j c (by omega) hji hc
    · rename_i slot hsome
      split at h
      · rename_i hcond
        simp only [Option.some.injEq, Prod.mk.injEq] at h
        obtain ⟨rfl, rfl⟩ := h
        refine ⟨le_refl _, by omega, hsome, hcond.1, hcond.2, ?_⟩
        intro j c hj hji
        omega
      · rename_i hcond
        obtain ⟨h1, h2, h3, h4, h5, h6⟩ := ih (buff + 1) h
        refine ⟨by omega, by omega, h3, h4, h5, ?_⟩
        intro j c hj hji hc
        by_cases hjb : j = buff
        · subst hjb; rw [hsome] at hc; cases hc; exact hcond
        · exact h6 j c (by omega) hji hc

theorem findBuffer_none (l : List AllocatedBuffer) (s : Nat) (k buff : Nat)
    (h : findBuffer l s buff k = none) :
    ∀ (j : Nat) (c : AllocatedBuffer), buff ≤ j → j < buff + k → l[j]? = some c →
      ¬ (c.allocated = false ∧ s < c.size) := by
  induction k generalizing buff with
  | zero => intro j c h1 h2; omega
  | succ k ih =>
    unfold findBuffer at h
    intro j c hj hjk hc
    split at h
    · rename_i hnone
      by_cases hjb : j = buff
      · subst hjb; rw [hnone] at hc; cases hc
      · exact ih (buff + 1) h j c (by omega) (by omega) hc
    · rename_i slot hsome
      split at h
      · cases h
      · rename_i hcond
        by_cases hjb : j = buff
        · subst hjb; rw [hsome] at hc; cases hc; exact hcond
        · exact ih (buff + 1) h j c (by omega) (by omega) hc

theorem acquire_found (st : BufferManagerComponentImpl) (p : Int) (s i : Nat)
    (b : AllocatedBuffer) (hs : st.m_setup = true)
    (hf : findBuffer st.m_buffers s 0 st.m_numStructs = some (i, b)) :
    bufferGetCallee_handler st p s = .done (acquired st i b) b.buff := by
  simp only [bufferGetCallee_handler, hs, hf, acquired]
  by_cases hh : (st.m_currBuffs + 1) % U32_MOD > st.m_highWater <;> simp [hh]

theorem acquire_none (st : BufferManagerComponentImpl) (p : Int) (s : Nat)
    (hs : st.m_setup = true)
    (hf : findBuffer st.m_buffers s 0 st.m_numStructs = none) :
    bufferGetCallee_handler st p s = .done (refused st s) Fw.Buffer.empty := by
  simp [bufferGetCallee_handler, hs, hf, refused]

theorem acquire_unset (st : BufferManagerComponentImpl) (p : Int) (s : Nat)
    (hs : st.m_setup = false) :
    bufferGetCallee_handler st p s = .assertFailed st := by
  simp [bufferGetCallee_handler, hs]

theorem release_zero (st : BufferManagerComponentImpl) (p : Int) (fw : Fw.Buffer)
    (hs : st.m_setup = true) (h0 : fw.size = 0) :
    bufferSendIn_handler st p fw = .done (warned st) () := by
  simp [bufferSendIn_handler, hs, h0, warned]

theorem release_valid (st : BufferManagerComponentImpl) (p : Int) (fw : Fw.Buffer)
    (b : AllocatedBuffer) (hs : st.m_setup = true) (h0 : fw.size ≠ 0)
    (hid : fw.bufferID < st.m_numStructs) (hm : fw.managerID = st.m_mgrID)
    (hb : st.m_buffers[fw.bufferID]? = some b) (ha : b.allocated = true)
    (hd : fw.data = b.memory) (hsz : fw.size ≤ b.size) :
    bufferSendIn_handler st p fw = .done (released st fw.bufferID b) () := by
  simp [bufferSendIn_handler, hs, h0, hid, hm, hb, ha, hd, hsz, released]

theorem release_unset (st : BufferManagerComponentImpl) (p : Int) (fw : Fw.Buffer)
    (hs : st.m_setup = false) :
    bufferSendIn_handler st p fw = .assertFailed st := by
  simp [bufferSendIn_handler, hs]

theorem release_invalid (st : BufferManagerComponentImpl) (p : Int) (fw : Fw.Buffer)
    (hs : st.m_setup = true) (h0 : fw.size ≠ 0)
    (hbad : ¬ (fw.bufferID < st.m_numStructs ∧ fw.managerID = st.m_mgrID ∧
        ∃ b, st.m_buffers[fw.bufferID]? = some b ∧ b.allocated = true ∧ fw.data = b.memory
          ∧ fw.size ≤ b.size)) :
    bufferSendIn_handler st p fw = .assertFailed st := by
  by_cases hid : fw.bufferID < st.m_numStructs
  · by_cases hm : fw.managerID = st.m_mgrID
    · cases hb : st.m_buffers[fw.bufferID]? with
      | none => simp [bufferSendIn_handler, hs, h0, hid, hm, hb]
      | some b =>
        by_cases ha : b.allocated = true
        · by_cases hd : fw.data = b.memory
          · by_cases hsz : fw.size ≤ b.size
            · exact absurd ⟨hid, hm, b, hb, ha, hd, hsz⟩ hbad
            · simp [bufferSendIn_handler, hs, h0, hid, hm, hb, ha, hd, hsz]
          · simp [bufferSendIn_handler, hs, h0, hid, hm, hb, ha, hd]
        · simp [bufferSendIn_handler, hs, h0, hid, hm, hb, ha]
    · simp [bufferSendIn_handler, hs, h0, hid, hm]
  · simp [bufferSendIn_handler, hs, h0, hid]

theorem release_done (st st1 : BufferManagerComponentImpl) (p : Int) (fw : Fw.Buffer)
    (h : bufferSendIn_handler st p fw = .done st1 ()) :
    st.m_setup = true ∧
    ((fw.size = 0 ∧ st1 = warned st) ∨
     (fw.size ≠ 0 ∧ fw.bufferID < st.m_numStructs ∧ fw.managerID = st.m_mgrID ∧
        ∃ b, st.m_buffers[fw.bufferID]? = some b ∧ b.allocated = true ∧ fw.data = b.memory
          ∧ fw.size ≤ b.size ∧ st1 = released st fw.bufferID b)) := by
  cases hs : st.m_setup with
  | false => rw [release_unset st p fw hs] at h; cases h
  | true =>
    refine ⟨rfl, ?_⟩
    by_cases h0 : fw.size = 0
    · rw [release_zero st p fw hs h0] at h
      left
      refine ⟨h0, ?_⟩
      injection h with h1 h2
      exact h1.symm
    · right
      by_cases hv : (fw.bufferID < st.m_numStructs ∧ fw.managerID = st.m_mgrID ∧
        ∃ b, st.m_buffers[fw.bufferID]? = some b ∧ b.allocated = true ∧ fw.data = b.memory
          ∧ fw.size ≤ b.size)
      · obtain ⟨hid, hm, b, hb, ha, hd, hsz⟩ := hv
        rw [release_valid st p fw b hs h0 hid hm hb ha hd hsz] at h
        injection h with h1 h2
        exact ⟨h0, hid, hm, b, hb, ha, hd, hsz, h1.symm⟩
      · rw [release_invalid st p fw hs h0 hv] at h
        cases h

theorem release_assertFailed (st st1 : BufferManagerComponentImpl) (p : Int)
    (fw : Fw.Buffer) (h : bufferSendIn_handler st p fw = .assertFailed st1) : st1 = st := by
  cases hs : st.m_setup with
  | false => rw [release_unset st p fw hs] at h; injection h with h1; exact h1.symm
  | true =>
    by_cases h0 : fw.size = 0
    · rw [release_zero st p fw hs h0] at h; cases h
    · by_cases hv : (fw.bufferID < st.m_numStructs ∧ fw.managerID = st.m_mgrID ∧
        ∃ b, st.m_buffers[fw.bufferID]? = some b ∧ b.allocated = true ∧ fw.data = b.memory
          ∧ fw.size ≤ b.size)
      · obtain ⟨hid, hm, b, hb, ha, hd, hsz⟩ := hv
        rw [release_valid st p fw b hs h0 hid hm hb ha hd hsz] at h
        cases h
      · rw [release_invalid st p fw hs h0 hv] at h
        injection h with h1
        exact h1.symm

theorem acquire_done (st st1 : BufferManagerComponentImpl) (p : Int) (s : Nat)
    (ret : Fw.Buffer) (h : bufferGetCallee_handler st p s = .done st1 ret) :
    st.m_setup = true ∧
    ((∃ i b, findBuffer st.m_buffers s 0 st.m_numStructs = some (i, b)
        ∧ st1 = acquired st i b ∧ ret = b.buff) ∨
     (findBuffer st.m_buffers s 0 st.m_numStructs = none
        ∧ st1 = refused st s ∧ ret = Fw.Buffer.empty)) := by
  cases hs : st.m_setup with
  | false => rw [acquire_unset st p s hs] at h; cases h
  | true =>
    refine ⟨rfl, ?_⟩
    cases hf : findBuffer st.m_buffers s 0 st.m_numStructs with
    | none =>
      rw [acquire_none st p s hs hf] at h
      injection h with h1 h2
      exact Or.inr ⟨rfl, h1.symm, h2.symm⟩
    | some ib =>
      obtain ⟨i, b⟩ := ib
      rw [acquire_found st p s i b hs hf] at h
      injection h with h1 h2
      exact Or.inl ⟨i, b, rfl, h1.symm, h2.symm⟩

theorem setup_done (S : Nat) (st st1 : BufferManagerComponentImpl) (mgrID memID : Nat)
    (allocator : Fw.MemAllocator) (bins : BufferBins)
    (h : setup S st mgrID memID allocator bins = .done st1 ()) :
    (allocator memID (computeSizes S bins).memorySize).1 ≠ 0
    ∧ (computeSizes S bins).memorySize = (allocator memID (computeSizes S bins).memorySize).2
    ∧ (finalCursor S mgrID (allocator memID (computeSizes S bins).memorySize).1 bins).bufferMem
        = (allocator memID (computeSizes S bins).memorySize).1
          + (computeSizes S bins).memorySize
    ∧ (finalCursor S mgrID (allocator memID (computeSizes S bins).memorySize).1 bins).currStruct
        = (computeSizes S bins).numStructs
    ∧ st1 = { st with
                m_mgrID := mgrID
                m_identifier := memID
                m_bufferBins := bins
                m_numStructs := (computeSizes S bins).numStructs
                emitted := st.emitted
                  ++ [Emission.allocate memID (computeSizes S bins).memorySize]
                m_buffers :=
                  (finalCursor S mgrID
                    (allocator memID (computeSizes S bins).memorySize).1 bins).buffers
                m_setup := true } := by
  by_cases h1 : (allocator memID (computeSizes S bins).memorySize).1 = 0
  · simp [setup, h1] at h
  by_cases h2 : (computeSizes S bins).memorySize
      = (allocator memID (computeSizes S bins).memorySize).2
  swap
  · simp [setup, h1, h2] at h
  by_cases h3 :
      (finalCursor S mgrID (allocator memID (computeSizes S bins).memorySize).1 bins).bufferMem
        = (allocator memID (computeSizes S bins).memorySize).1
          + (computeSizes S bins).memorySize
  swap
  · simp only [finalCursor] at h3
    simp [setup, h1, ← h2, h3] at h
  by_cases h4 :
      (finalCursor S mgrID (allocator memID (computeSizes S bins).memorySize).1 bins).currStruct
        = (computeSizes S bins).numStructs
  swap
  · simp only [finalCursor] at h3 h4
    simp [setup, h1, ← h2, h3, h4] at h
  refine ⟨h1, h2, h3, h4, ?_⟩
  simp only [finalCursor] at h3 h4
  simp [setup, h1, ← h2, h3, h4] at h
  rw [← h]
  rfl

theorem setup_inv (S : Nat) (st : BufferManagerComponentImpl) (mgrID memID : Nat)
    (allocator : Fw.MemAllocator) (bins : BufferBins)
    (h : setup S construct mgrID memID allocator bins = .done st ()) : Inv st := by
  obtain ⟨_, _, _, h4, rfl⟩ := setup_done S construct st mgrID memID allocator bins h
  have hc : CursorInv mgrID
      (finalCursor S mgrID (allocator memID (computeSizes S bins).memorySize).1 bins) :=
    foldl_initBin_inv mgrID bins _ ⟨by simp, U32_MOD_pos, by simp⟩
  refine ⟨rfl, ?_, ?_, ?_, ?_, ?_⟩
  · show (computeSizes S bins).numStructs ≤ _
    rw [← h4]; exact hc.le
  · show (computeSizes S bins).numStructs < _
    rw [← h4]; exact hc.lt
  · intro i b hb
    exact (hc.written i b hb).2
  · intro i b hb ha
    have := (hc.written i b hb).1
    rw [this] at ha; cases ha
  · show construct.m_currBuffs = _
    unfold numAllocated
    rw [countAllocated_eq_zero]
    · rfl
    · intro i b hb
      rw [List.getElem?_take] at hb
      split at hb
      · exact (hc.written i b hb).1
      · cases hb

theorem numAllocated_set (st : BufferManagerComponentImpl) (i : Nat)
    (b x : AllocatedBuffer) (hi : i < st.m_numStructs) (hb : st.m_buffers[i]? = some b) :
    countAllocated ((st.m_buffers.set i x).take st.m_numStructs)
        + (if b.allocated then 1 else 0)
      = numAllocated st + (if x.allocated then 1 else 0) := by
  unfold numAllocated
  rw [List.set_take]
  apply countAllocated_set
  rw [List.getElem?_take_of_lt hi]
  exact hb

theorem acquired_count (st : BufferManagerComponentImpl) (s i : Nat) (b : AllocatedBuffer)
    (hf : findBuffer st.m_buffers s 0 st.m_numStructs = some (i, b)) :
    numAllocated (acquired st i b) = numAllocated st + 1 := by
  obtain ⟨_, hi, hb, ha, _, _⟩ := findBuffer_some _ _ _ _ _ _ hf
  have := numAllocated_set st i b { b with allocated := true } (by omega) hb
  simp only [ha] at this
  simpa [numAllocated, acquired] using this

theorem acquired_inv (st : BufferManagerComponentImpl) (s i : Nat) (b : AllocatedBuffer)
    (hinv : Inv st) (hf : findBuffer st.m_buffers s 0 st.m_numStructs = some (i, b)) :
    Inv (acquired st i b) := by
  have hcount := acquired_count st s i b hf
  obtain ⟨_, hi, hb, ha, _, _⟩ := findBuffer_some _ _ _ _ _ _ hf
  refine ⟨hinv.isSetup, ?_, hinv.numLt, ?_, ?_, ?_⟩
  · show st.m_numStructs ≤ (st.m_buffers.set i _).length
    rw [List.length_set]; exact hinv.numLe
  · intro j c hc
    change (st.m_buffers.set i _)[j]? = some c at hc
    rw [List.getElem?_set] at hc
    split at hc
    · rename_i hij
      subst hij
      split at hc
      · cases hc
        exact hinv.handle i b hb
      · cases hc
    · exact hinv.handle j c hc
  · intro j c hc hac
    change (st.m_buffers.set i _)[j]? = some c at hc
    show j < st.m_numStructs
    rw [List.getElem?_set] at hc
    split at hc
    · rename_i hij
      subst hij
      omega
    · exact hinv.allocLt j c hc hac
  · rw [hcount]
    show (st.m_currBuffs + 1) % U32_MOD = _
    have h1 := numAllocated_le (acquired st i b)
    have h2 : (acquired st i b).m_numStructs = st.m_numStructs := rfl
    have h3 := hinv.numLt
    have h4 := hinv.curr
    rw [Nat.mod_eq_of_lt] <;> omega

theorem released_count (st : BufferManagerComponentImpl) (i : Nat) (b : AllocatedBuffer)
    (hi : i < st.m_numStructs) (hb : st.m_buffers[i]? = some b) (ha : b.allocated = true) :
    numAllocated (released st i b) + 1 = numAllocated st := by
  have := numAllocated_set st i b
    { b with allocated := false, buff := b.buff.setsize b.size } hi hb
  simp only [ha] at this
  simpa [numAllocated, released] using this

theorem released_inv (st : BufferManagerComponentImpl) (i : Nat) (b : AllocatedBuffer)
    (hinv : Inv st) (hi : i < st.m_numStructs) (hb : st.m_buffers[i]? = some b)
    (ha : b.allocated = true) : Inv (released st i b) := by
  have hcount := released_count st i b hi hb ha
  refine ⟨hinv.isSetup, ?_, hinv.numLt, ?_, ?_, ?_⟩
  · show st.m_numStructs ≤ (st.m_buffers.set i _).length
    rw [List.length_set]; exact hinv.numLe
  · intro j c hc
    change (st.m_buffers.set i _)[j]? = some c at hc
    rw [List.getElem?_set] at hc
    split at hc
    · rename_i hij
      subst hij
      split at hc
      · cases hc
        obtain ⟨h1, h2, h3, _⟩ := hinv.handle i b hb
        exact ⟨h1, h2, h3, rfl⟩
      · cases hc
    · exact hinv.handle j c hc
  · intro j c hc hac
    change (st.m_buffers.set i _)[j]? = some c at hc
    show j < st.m_numStructs
    rw [List.getElem?_set] at hc
    split at hc
    · rename_i hij
      subst hij
      omega
    · exact hinv.allocLt j c hc hac
  · show (st.m_currBuffs + U32_MOD - 1) % U32_MOD = _
    have h1 := numAllocated_le st
    have h3 := hinv.numLt
    have h4 := hinv.curr
    have h5 : st.m_currBuffs + U32_MOD - 1 = (st.m_currBuffs - 1) + U32_MOD := by omega
    rw [h5, Nat.add_mod_right, Nat.mod_eq_of_lt] <;> omega

theorem refused_inv (st : BufferManagerComponentImpl) (s : Nat) (hinv : Inv st) :
    Inv (refused st s) :=
  ⟨hinv.isSetup, hinv.numLe, hinv.numLt, hinv.handle, hinv.allocLt, hinv.curr⟩

theorem warned_inv (st : BufferManagerComponentImpl) (hinv : Inv st) : Inv (warned st) :=
  ⟨hinv.isSetup, hinv.numLe, hinv.numLt, hinv.handle, hinv.allocLt, hinv.curr⟩

theorem run_inv (st : BufferManagerComponentImpl) (hist : List BufferManagerComponentImpl)
    (h : Run st hist) : Inv st := by
  induction h with
  | setup S mgrID memID allocator bins st h => exact setup_inv S st mgrID memID allocator bins h
  | acquire st st1 hist p s ret _ h ih =>
    obtain ⟨_, hcase⟩ := acquire_done st st1 p s ret h
    rcases hcase with ⟨i, b, hf, rfl, _⟩ | ⟨_, rfl, _⟩
    · exact acquired_inv st s i b ih hf
    · exact refused_inv st s ih
  | release st st1 hist p fw _ h ih =>
    obtain ⟨_, hcase⟩ := release_done st st1 p fw h
    rcases hcase with ⟨_, rfl⟩ | ⟨_, hid, _, b, hb, ha, _, _, rfl⟩
    · exact warned_inv st ih
    · exact released_inv st _ b ih hid hb ha

theorem reachable_inv (st : BufferManagerComponentImpl) (h : Reachable st) : Inv st := by
  obtain ⟨hist, hrun⟩ := h
  exact run_inv st hist hrun

theorem slot?_eq_some (st : BufferManagerComponentImpl) (i : Nat) (b : AllocatedBuffer) :
    slot? st i = some b ↔ i < st.m_numStructs ∧ st.m_buffers[i]? = some b := by
  unfold slot?
  split
  · rename_i h; simp [h]
  · rename_i h; simp [h]

theorem example_setup (S mgrID memID : Nat) (allocator : Fw.MemAllocator)
    (st0 : BufferManagerComponentImpl)
    (h : setup S construct mgrID memID allocator exampleBins = .done st0 ()) :
    st0.m_setup = true ∧ st0.m_numStructs = 5 ∧
      ∃ a, st0.m_buffers = exampleSlots mgrID a := by
  obtain ⟨_, _, _, _, rfl⟩ := setup_done S construct st0 mgrID memID allocator exampleBins h
  refine ⟨rfl, ?_, ?_⟩
  · simp [computeSizes, sizeStep, exampleBins, U32_MOD]
  · refine ⟨(allocator memID (computeSizes S exampleBins).memorySize).1
        + (computeSizes S exampleBins).numStructs * S, ?_⟩
    simp [finalCursor, exampleBins, initBin, initEntries, initEntry, storeAt, U32_MOD,
      exampleSlots, Nat.add_assoc]

theorem examplePool_run : Run examplePool [examplePool, construct] :=
  Run.setup 40 7 0 (fixedAllocator 1000) exampleBins examplePool (by decide)

theorem examplePool1_run : Run examplePool1 [examplePool1, examplePool, construct] :=
  Run.acquire examplePool examplePool1 _ 0 5 ⟨7, 0, 1200, 8⟩ examplePool_run (by decide)

theorem examplePool2_run :
    Run examplePool2 [examplePool2, examplePool1, examplePool, construct] :=
  Run.acquire examplePool1 examplePool2 _ 0 5 ⟨7, 1, 1208, 8⟩ examplePool1_run (by decide)

theorem examplePool3_run :
    Run examplePool3 [examplePool3, examplePool2, examplePool1, examplePool, construct] :=
  Run.release examplePool2 examplePool3 _ 0 ⟨7, 0, 1200, 3⟩ examplePool2_run (by decide)

theorem examplePool_reachable : Reachable examplePool := ⟨_, examplePool_run⟩

theorem examplePool1_reachable : Reachable examplePool1 := ⟨_, examplePool1_run⟩

theorem examplePool2_reachable : Reachable examplePool2 := ⟨_, examplePool2_run⟩

theorem foldl_sizeStep (S : Nat) (bins : BufferBins) (acc : SizeTotals)
    (hm : acc.memorySize < U32_MOD) (hn : acc.numStructs < U32_MOD) :
    bins.foldl (sizeStep S) acc
      = ⟨(acc.memorySize + totalBytes S bins) % U32_MOD,
         (acc.numStructs + totalBuffers bins) % U32_MOD⟩ := by
  induction bins generalizing acc with
  | nil =>
    simp [totalBytes, totalBuffers, Nat.mod_eq_of_lt hm, Nat.mod_eq_of_lt hn]
  | cons b rest ih =>
    have hstep : sizeStep S acc b
        = ⟨(acc.memorySize + ((b.bufferSize * b.numBuffers) % U32_MOD + S * b.numBuffers))
              % U32_MOD,
           (acc.numStructs + b.numBuffers) % U32_MOD⟩ := by
      unfold sizeStep
      split
      · rfl
      · rename_i h0
        have h0 : b.numBuffers = 0 := by simpa using h0
        simp [h0, Nat.mod_eq_of_lt hm, Nat.mod_eq_of_lt hn]
    rw [List.foldl_cons, hstep,
      ih _ (Nat.mod_lt _ U32_MOD_pos) (Nat.mod_lt _ U32_MOD_pos)]
    have e1 : totalBuffers (b :: rest) = b.numBuffers + totalBuffers rest := by
      simp [totalBuffers]
    have e2 : totalBytes S (b :: rest)
        = b.bufferSize * b.numBuffers + S * b.numBuffers + totalBytes S rest := by
      simp only [totalBytes, e1, List.map_cons, List.sum_cons, Nat.add_mul,
        Nat.mul_comm S b.numBuffers]
      omega
    rw [e1, e2]
    generalize b.bufferSize * b.numBuffers = P
    generalize S * b.numBuffers = Q
    generalize totalBytes S rest = R
    generalize totalBuffers rest = T
    simp only [U32_MOD]
    congr 1 <;> omega

theorem computeSizes_eq (S : Nat) (bins : BufferBins) :
    computeSizes S bins = ⟨totalBytes S bins % U32_MOD, totalBuffers bins % U32_MOD⟩ := by
  unfold computeSizes
  rw [foldl_sizeStep S bins ⟨0, 0⟩ U32_MOD_pos U32_MOD_pos]
  simp

theorem setup_state (S : Nat) (st : BufferManagerComponentImpl) (mgrID memID : Nat)
    (allocator : Fw.MemAllocator) (bins : BufferBins) :
    (setup S st mgrID memID allocator bins).state.m_numStructs
        = (computeSizes S bins).numStructs
    ∧ (setup S st mgrID memID allocator bins).state.emitted
        = st.emitted ++ [Emission.allocate memID (computeSizes S bins).memorySize] := by
  unfold setup
  simp only []
  split
  · exact ⟨rfl, rfl⟩
  · split
    · exact ⟨rfl, rfl⟩
    · split
      · exact ⟨rfl, rfl⟩
      · split <;> exact ⟨rfl, rfl⟩

theorem initEntries_length (mgrID bufferSize : Nat) (n : Nat) (c : InitCursor)
    (hc : c.currStruct = c.buffers.length) (hlt : c.buffers.length + n < U32_MOD) :
    (initEntries mgrID bufferSize n c).currStruct
        = (initEntries mgrID bufferSize n c).buffers.length
    ∧ (initEntries mgrID bufferSize n c).buffers.length = c.buffers.length + n := by
  induction n generalizing c with
  | zero => exact ⟨hc, rfl⟩
  | succ n ih =>
    have hlen : (initEntry mgrID bufferSize c).buffers.length = c.buffers.length + 1 := by
      simp [initEntry, storeAt, hc]
    have hcur : (initEntry mgrID bufferSize c).currStruct
        = (initEntry mgrID bufferSize c).buffers.length := by
      rw [hlen]
      show (c.currStruct + 1) % U32_MOD = _
      rw [hc, Nat.mod_eq_of_lt (by omega)]
    obtain ⟨h1, h2⟩ := ih (initEntry mgrID bufferSize c) hcur (by omega)
    refine ⟨h1, ?_⟩
    show (initEntries mgrID bufferSize n (initEntry mgrID bufferSize c)).buffers.length = _
    rw [h2, hlen]; omega

theorem foldl_initBin_length (mgrID : Nat) (bins : BufferBins) (c : InitCursor)
    (hc : c.currStruct = c.buffers.length)
    (hlt : c.buffers.length + totalBuffers bins < U32_MOD) :
    (bins.foldl (initBin mgrID) c).currStruct = (bins.foldl (initBin mgrID) c).buffers.length
    ∧ (bins.foldl (initBin mgrID) c).buffers.length
        = c.buffers.length + totalBuffers bins := by
  induction bins generalizing c with
  | nil => exact ⟨hc, by simp [totalBuffers]⟩
  | cons b rest ih =>
    have e1 : totalBuffers (b :: rest) = b.numBuffers + totalBuffers rest := by
      simp [totalBuffers]
    rw [e1] at hlt ⊢
    have hb : (initBin mgrID c b).currStruct = (initBin mgrID c b).buffers.length
        ∧ (initBin mgrID c b).buffers.length = c.buffers.length + b.numBuffers := by
      unfold initBin
      split
      · exact initEntries_length mgrID b.bufferSize b.numBuffers c hc (by omega)
      · rename_i h0
        have h0 : b.numBuffers = 0 := by simpa using h0
        exact ⟨hc, by omega⟩
    obtain ⟨h1, h2⟩ := ih (initBin mgrID c b) hb.1 (by omega)
    exact ⟨h1, by rw [List.foldl_cons, h2, hb.2]; omega⟩

theorem computeSizes_filter (S : Nat) (bins : BufferBins) :
    computeSizes S (bins.filter (fun b => b.numBuffers ≠ 0)) = computeSizes S bins := by
  unfold computeSizes
  generalize (⟨0, 0⟩ : SizeTotals) = acc
  induction bins generalizing acc with
  | nil => rfl
  | cons b rest ih =>
    by_cases h0 : b.numBuffers = 0
    · have : sizeStep S acc b = acc := by simp [sizeStep, h0]
      rw [List.filter_cons]
      simp only [h0, ne_eq, not_true_eq_false, decide_False, Bool.false_eq_true, if_false,
        List.foldl_cons, this]
      exact ih acc
    · rw [List.filter_cons]
      simp only [h0, ne_eq, not_false_eq_true, decide_True, if_true, List.foldl_cons]
      exact ih _

theorem setup_m_setup (S : Nat) (st : BufferManagerComponentImpl) (mgrID memID : Nat)
    (allocator : Fw.MemAllocator) (bins : BufferBins) :
    (∀ st1, setup S st mgrID memID allocator bins = .assertFailed st1 →
      st1.m_setup = st.m_setup) := by
  intro st1 h
  unfold setup at h
  simp only [] at h
  split at h
  · injection h with h; rw [← h]
  · split at h
    · injection h with h; rw [← h]
    · split at h
      · injection h with h; rw [← h]
      · split at h
        · injection h with h; rw [← h]
        · cases h

theorem setup_completes (S : Nat) (st : BufferManagerComponentImpl) (mgrID memID : Nat)
    (allocator : Fw.MemAllocator) (bins : BufferBins)
    (h1 : (allocator memID (computeSizes S bins).memorySize).1 ≠ 0)
    (h2 : (computeSizes S bins).memorySize
      = (allocator memID (computeSizes S bins).memorySize).2)
    (h3 : (finalCursor S mgrID (allocator memID (computeSizes S bins).memorySize).1
        bins).bufferMem
      = (allocator memID (computeSizes S bins).memorySize).1
          + (computeSizes S bins).memorySize)
    (h4 : (finalCursor S mgrID (allocator memID (computeSizes S bins).memorySize).1
        bins).currStruct = (computeSizes S bins).numStructs) :
    ∃ st1, setup S st mgrID memID allocator bins = .done st1 () := by
  simp only [finalCursor] at h3 h4
  cases hout : setup S st mgrID memID allocator bins with
  | done st1 u => exact ⟨st1, rfl⟩
  | assertFailed st1 => simp [setup, h1, ← h2, h3, h4] at hout

theorem set_self (l : List AllocatedBuffer) (i : Nat) (b : AllocatedBuffer)
    (hb : l[i]? = some b) : l.set i b = l := by
  apply List.ext_getElem?
  intro j
  rw [List.getElem?_set]
  split
  · rename_i hij
    subst hij
    have hlt : i < l.length := by
      by_contra hge
      rw [List.getElem?_eq_none (by omega)] at hb
      cases hb
    simp [hlt, hb]
  · rfl

theorem acquire_step (st st1 : BufferManagerComponentImpl) (p : Int) (s : Nat)
    (ret : Fw.Buffer) (h : bufferGetCallee_handler st p s = .done st1 ret) :
    st1.m_numStructs = st.m_numStructs
    ∧ (st1.m_buffers = st.m_buffers
      ∨ ∃ i b, i < st.m_numStructs ∧ st.m_buffers[i]? = some b ∧ b.allocated = false
          ∧ st1.m_buffers = st.m_buffers.set i { b with allocated := true }) := by
  obtain ⟨_, hcase⟩ := acquire_done st st1 p s ret h
  rcases hcase with ⟨i, b, hf, rfl, _⟩ | ⟨_, rfl, _⟩
  · obtain ⟨_, hi, hb, ha, _, _⟩ := findBuffer_some _ _ _ _ _ _ hf
    exact ⟨rfl, Or.inr ⟨i, b, by omega, hb, ha, rfl⟩⟩
  · exact ⟨rfl, Or.inl rfl⟩

theorem release_step (st st1 : BufferManagerComponentImpl) (p : Int) (fw : Fw.Buffer)
    (h : bufferSendIn_handler st p fw = .done st1 ()) :
    st1.m_numStructs = st.m_numStructs
    ∧ (st1.m_buffers = st.m_buffers
      ∨ ∃ i b, i < st.m_numStructs ∧ st.m_buffers[i]? = some b ∧ b.allocated = true
          ∧ st1.m_buffers = st.m_buffers.set i
              { b with allocated := false, buff := b.buff.setsize b.size }) := by
  obtain ⟨_, hcase⟩ := release_done st st1 p fw h
  rcases hcase with ⟨_, rfl⟩ | ⟨_, hid, _, b, hb, ha, _, _, rfl⟩
  · exact ⟨rfl, Or.inl rfl⟩
  · exact ⟨rfl, Or.inr ⟨_, b, hid, hb, ha, rfl⟩⟩

theorem geometry_set (l : List AllocatedBuffer) (i : Nat) (b x : AllocatedBuffer)
    (hb : l[i]? = some b) (hm : x.memory = b.memory) (hs : x.size = b.size) :
    (l.set i x).map (fun c => (c.memory, c.size)) = l.map (fun c => (c.memory, c.size)) := by
  have hlt : i < l.length := by
    by_contra hge
    rw [List.getElem?_eq_none (by omega)] at hb
    cases hb
  rw [List.map_set]
  apply List.ext_getElem?
  intro j
  rw [List.getElem?_set]
  split
  · rename_i hij
    subst hij
    rw [List.getElem?_map, hb]
    simp [hm, hs, hlt]
  · rfl

theorem acquire_geometry (st st1 : BufferManagerComponentImpl) (p : Int) (s : Nat)
    (ret : Fw.Buffer) (h : bufferGetCallee_handler st p s = .done st1 ret) :
    st1.m_buffers.map (fun c => (c.memory, c.size))
      = st.m_buffers.map (fun c => (c.memory, c.size)) := by
  rcases (acquire_step st st1 p s ret h).2 with he | ⟨i, b, _, hb, _, he⟩
  · rw [he]
  · rw [he]; exact geometry_set _ i b _ hb rfl rfl

theorem release_geometry (st st1 : BufferManagerComponentImpl) (p : Int) (fw : Fw.Buffer)
    (h : bufferSendIn_handler st p fw = .done st1 ()) :
    st1.m_buffers.map (fun c => (c.memory, c.size))
      = st.m_buffers.map (fun c => (c.memory, c.size)) := by
  rcases (release_step st st1 p fw h).2 with he | ⟨i, b, _, hb, _, he⟩
  · rw [he]
  · rw [he]; exact geometry_set _ i b _ hb rfl rfl

theorem run_head (st : BufferManagerComponentImpl) (hist : List BufferManagerComponentImpl)
    (h : Run st hist) : ∃ tl, tl ≠ [] ∧ hist = st :: tl := by
  cases h with
  | setup S mgrID memID allocator bins st h => exact ⟨[construct], by simp, rfl⟩
  | acquire st0 st1 hist0 p s ret hrun h =>
    refine ⟨hist0, ?_, rfl⟩
    cases hrun <;> simp
  | release st0 st1 hist0 p fw hrun h =>
    refine ⟨hist0, ?_, rfl⟩
    cases hrun <;> simp

theorem run_bounds (st : BufferManagerComponentImpl)
    (hist : List BufferManagerComponentImpl) (h : Run st hist) :
    st.m_currBuffs ≤ st.m_highWater ∧ st.m_highWater ≤ st.m_numStructs := by
  induction h with
  | setup S mgrID memID allocator bins st h =>
    obtain ⟨_, _, _, _, rfl⟩ := setup_done S construct st mgrID memID allocator bins h
    exact ⟨le_refl _, Nat.zero_le _⟩
  | acquire st st1 hist p s ret hrun h ih =>
    have hinv := run_inv st hist hrun
    obtain ⟨_, hcase⟩ := acquire_done st st1 p s ret h
    rcases hcase with ⟨i, b, hf, rfl, _⟩ | ⟨_, rfl, _⟩
    · have h1 := (acquired_inv st s i b hinv hf).curr
      have h2 := numAllocated_le (acquired st i b)
      have h3 : (acquired st i b).m_numStructs = st.m_numStructs := rfl
      have h4 : (acquired st i b).m_highWater
          = if (acquired st i b).m_currBuffs > st.m_highWater
            then (acquired st i b).m_currBuffs else st.m_highWater := rfl
      rw [h4, h3]
      split <;> omega
    · exact ih
  | release st st1 hist p fw hrun h ih =>
    have hinv := run_inv st hist hrun
    obtain ⟨_, hcase⟩ := release_done st st1 p fw h
    rcases hcase with ⟨_, rfl⟩ | ⟨_, hid, _, b, hb, ha, _, _, rfl⟩
    · exact ih
    · have h1 := released_count st _ b hid hb ha
      have h2 := (released_inv st _ b hinv hid hb ha).curr
      have h3 := hinv.curr
      have h4 : (released st fw.bufferID b).m_highWater = st.m_highWater := rfl
      have h5 : (released st fw.bufferID b).m_numStructs = st.m_numStructs := rfl
      rw [h4, h5]
      omega

theorem roundtrip (st : BufferManagerComponentImpl) (p : Int) (s i r : Nat)
    (b : AllocatedBuffer) (hinv : Inv st)
    (hf : findBuffer st.m_buffers s 0 st.m_numStructs = some (i, b))
    (hr1 : 1 ≤ r) (hr2 : r ≤ b.size) :
    ∃ st2, bufferSendIn_handler (acquired st i b) p
        ⟨b.buff.managerID, b.buff.bufferID, b.buff.data, r⟩ = .done st2 ()
      ∧ st2.m_setup = true
      ∧ st2.m_buffers = st.m_buffers ∧ st2.m_numStructs = st.m_numStructs
      ∧ st2.m_currBuffs = st.m_currBuffs ∧ st2.m_emptyBuffs = st.m_emptyBuffs
      ∧ st2.m_highWater = (acquired st i b).m_highWater
      ∧ st.m_highWater ≤ st2.m_highWater := by
  obtain ⟨_, hi, hb, ha, hsz, _⟩ := findBuffer_some _ _ _ _ _ _ hf
  obtain ⟨e1, e2, e3, e4⟩ := hinv.handle i b hb
  subst e1
  have hi : b.buff.bufferID < st.m_numStructs := by omega
  have hlen : b.buff.bufferID < st.m_buffers.length := Nat.lt_of_lt_of_le hi hinv.numLe
  have hinv1 := acquired_inv st s _ b hinv hf
  have hb1 : (acquired st b.buff.bufferID b).m_buffers[b.buff.bufferID]?
      = some { b with allocated := true } := by
    show (st.m_buffers.set b.buff.bufferID _)[b.buff.bufferID]? = _
    rw [List.getElem?_set]
    simp [hlen]
  have hrel := release_valid (acquired st b.buff.bufferID b) p
    ⟨b.buff.managerID, b.buff.bufferID, b.buff.data, r⟩ { b with allocated := true }
    hinv1.isSetup (by show r ≠ 0; omega) hi e2 hb1 rfl e3 hr2
  refine ⟨_, hrel, hinv.isSetup, ?_, rfl, ?_, rfl, rfl, ?_⟩
  · show ((st.m_buffers.set b.buff.bufferID _).set b.buff.bufferID _) = _
    rw [List.set_set]
    have hrec : (⟨b.buff.setsize b.size, b.memory, b.size, false⟩ : AllocatedBuffer)
        = b := by
      cases b with
      | mk buff memory size allocated =>
        cases buff with
        | mk m id d sz =>
          simp only [Fw.Buffer.setsize] at *
          subst ha
          subst e4
          rfl
    rw [hrec]
    exact set_self _ _ b hb
  · have h1 := acquired_count st s _ b hf
    have h2 := hinv1.curr
    have h3 := released_count (acquired st b.buff.bufferID b) _ { b with allocated := true }
      hi hb1 rfl
    have h4 := (released_inv (acquired st b.buff.bufferID b) _ { b with allocated := true }
      hinv1 hi hb1 rfl).curr
    have h5 := hinv.curr
    show (released (acquired st b.buff.bufferID b) b.buff.bufferID
      { b with allocated := true }).m_currBuffs = _
    omega
  · show st.m_highWater ≤ (acquired st b.buff.bufferID b).m_highWater
    have h4 : (acquired st b.buff.bufferID b).m_highWater
        = if (acquired st b.buff.bufferID b).m_currBuffs > st.m_highWater
          then (acquired st b.buff.bufferID b).m_currBuffs else st.m_highWater := rfl
    rw [h4]
    split <;> omega

theorem slot?_set (st st1 : BufferManagerComponentImpl) (i : Nat) (b x : AllocatedBuffer)
    (hn : st1.m_numStructs = st.m_numStructs) (hi : i < st.m_numStructs)
    (hb : st.m_buffers[i]? = some b) (he : st1.m_buffers = st.m_buffers.set i x) (j : Nat) :
    slot? st1 j = if j = i then some x else slot? st j := by
  have hlt : i < st.m_buffers.length := by
    by_contra hge
    rw [List.getElem?_eq_none (by omega)] at hb
    cases hb
  unfold slot?
  rw [hn, he, List.getElem?_set]
  by_cases hji : j = i
  · subst hji; simp [hi, hlt]
  · have : ¬ i = j := fun e => hji e.symm
    simp [hji, this]

theorem run_geometry (st : BufferManagerComponentImpl)
    (hist : List BufferManagerComponentImpl) (h : Run st hist) :
    ∀ x ∈ hist.dropLast, x.m_numStructs = st.m_numStructs
      ∧ x.m_buffers.map (fun c => (c.memory, c.size))
          = st.m_buffers.map (fun c => (c.memory, c.size)) := by
  induction h with
  | setup S mgrID memID allocator bins st h =>
    intro x hx
    simp at hx
    subst hx
    exact ⟨rfl, rfl⟩
  | acquire st st1 hist p s ret hrun h ih =>
    obtain ⟨tl, htl, rfl⟩ := run_head st hist hrun
    intro x hx
    rw [List.dropLast_cons_of_ne_nil (by simp)] at hx
    rcases List.mem_cons.1 hx with rfl | hx
    · exact ⟨rfl, rfl⟩
    · obtain ⟨h1, h2⟩ := ih x hx
      exact ⟨by rw [h1, (acquire_step st st1 p s ret h).1],
        by rw [h2, acquire_geometry st st1 p s ret h]⟩
  | release st st1 hist p fw hrun h ih =>
    obtain ⟨tl, htl, rfl⟩ := run_head st hist hrun
    intro x hx
    rw [List.dropLast_cons_of_ne_nil (by simp)] at hx
    rcases List.mem_cons.1 hx with rfl | hx
    · exact ⟨rfl, rfl⟩
    · obtain ⟨h1, h2⟩ := ih x hx
      exact ⟨by rw [h1, (release_step st st1 p fw h).1],
        by rw [h2, release_geometry st st1 p fw h]⟩

theorem specSlots_append (mgrID : Nat) (xs ys : List Nat) (id offset : Nat) :
    specSlots mgrID (xs ++ ys) id offset
      = specSlots mgrID xs id offset
        ++ specSlots mgrID ys (id + xs.length) (offset + xs.sum) := by
  induction xs generalizing id offset with
  | nil => simp [specSlots]
  | cons x rest ih =>
    have e1 : id + 1 + rest.length = id + (rest.length + 1) := by omega
    have e2 : offset + x + rest.sum = offset + (x + rest.sum) := by omega
    rw [List.cons_append]
    show _ :: specSlots mgrID (rest ++ ys) (id + 1) (offset + x)
      = (_ :: specSlots mgrID rest (id + 1) (offset + x))
        ++ specSlots mgrID ys (id + (x :: rest).length) (offset + (x :: rest).sum)
    rw [ih, List.length_cons, List.sum_cons, e1, e2]
    rfl

theorem specSlots_length (mgrID : Nat) (xs : List Nat) (id offset : Nat) :
    (specSlots mgrID xs id offset).length = xs.length := by
  induction xs generalizing id offset with
  | nil => rfl
  | cons x rest ih => simp [specSlots, ih]

theorem specSlots_size (mgrID : Nat) (xs : List Nat) (id offset : Nat) :
    (specSlots mgrID xs id offset).map (fun c => c.size) = xs := by
  induction xs generalizing id offset with
  | nil => rfl
  | cons x rest ih => simp [specSlots, ih]

theorem specSlots_getElem? (mgrID : Nat) (xs : List Nat) (id offset i : Nat)
    (b : AllocatedBuffer) (hb : (specSlots mgrID xs id offset)[i]? = some b) :
    b.allocated = false ∧ b.buff.bufferID = id + i
      ∧ b.memory = offset + (xs.take i).sum ∧ xs[i]? = some b.size := by
  induction xs generalizing id offset i with
  | nil => simp [specSlots] at hb
  | cons x rest ih =>
    cases i with
    | zero =>
      simp [specSlots] at hb
      subst hb
      simp
    | succ i =>
      simp only [specSlots, List.getElem?_cons_succ] at hb
      obtain ⟨h1, h2, h3, h4⟩ := ih (id + 1) (offset + x) i hb
      refine ⟨h1, by omega, ?_, by simpa using h4⟩
      rw [h3]
      simp only [List.take_succ_cons, List.sum_cons]
      omega

theorem slotCapacities_cons (b : BufferBin) (rest : BufferBins) :
    slotCapacities (b :: rest)
      = List.replicate b.numBuffers b.bufferSize ++ slotCapacities rest := by
  simp [slotCapacities, List.flatMap_cons]

theorem slotCapacities_length (bins : BufferBins) :
    (slotCapacities bins).length = totalBuffers bins := by
  induction bins with
  | nil => rfl
  | cons b rest ih =>
    rw [slotCapacities_cons]
    simp [ih, totalBuffers]

theorem slotCapacities_sum (bins : BufferBins) :
    (slotCapacities bins).sum = payloadBytes bins := by
  induction bins with
  | nil => rfl
  | cons b rest ih =>
    rw [slotCapacities_cons]
    simp [ih, payloadBytes, Nat.mul_comm]

theorem totalBytes_eq (S : Nat) (bins : BufferBins) :
    totalBytes S bins = payloadBytes bins + totalBuffers bins * S := rfl

theorem initEntries_closed (mgrID bufferSize : Nat) (n : Nat) (c : InitCursor)
    (hc : c.currStruct = c.buffers.length) (hlt : c.buffers.length + n < U32_MOD) :
    initEntries mgrID bufferSize n c
      = ⟨c.currStruct + n, c.bufferMem + bufferSize * n,
         c.buffers ++ specSlots mgrID (List.replicate n bufferSize) c.currStruct
           c.bufferMem⟩ := by
  induction n generalizing c with
  | zero => simp [initEntries, specSlots]
  | succ n ih =>
    have hentry : initEntry mgrID bufferSize c
        = ⟨c.currStruct + 1, c.bufferMem + bufferSize,
           c.buffers ++ [⟨⟨mgrID, c.currStruct, c.bufferMem, bufferSize⟩, c.bufferMem,
             bufferSize, false⟩]⟩ := by
      have h1 : (c.buffers.length + 1) % U32_MOD = c.buffers.length + 1 :=
        Nat.mod_eq_of_lt (by omega)
      simp [initEntry, storeAt, hc, h1]
    show initEntries mgrID bufferSize n (initEntry mgrID bufferSize c) = _
    rw [hentry, ih _ (by simp [hc]) (by simp; omega)]
    simp only [List.replicate_succ, specSlots, List.append_assoc, List.singleton_append,
      InitCursor.mk.injEq]
    exact ⟨by omega, by rw [Nat.mul_succ]; omega, trivial⟩

theorem foldl_initBin_closed (mgrID : Nat) (bins : BufferBins) (c : InitCursor)
    (hc : c.currStruct = c.buffers.length)
    (hlt : c.buffers.length + totalBuffers bins < U32_MOD) :
    bins.foldl (initBin mgrID) c
      = ⟨c.currStruct + totalBuffers bins, c.bufferMem + payloadBytes bins,
         c.buffers ++ specSlots mgrID (slotCapacities bins) c.currStruct c.bufferMem⟩ := by
  induction bins generalizing c with
  | nil => simp [totalBuffers, payloadBytes, slotCapacities, specSlots]
  | cons b rest ih =>
    have e1 : totalBuffers (b :: rest) = b.numBuffers + totalBuffers rest := by
      simp [totalBuffers]
    have e2 : payloadBytes (b :: rest)
        = b.bufferSize * b.numBuffers + payloadBytes rest := by
      simp [payloadBytes]
    rw [e1] at hlt
    have hbin : initBin mgrID c b
        = ⟨c.currStruct + b.numBuffers, c.bufferMem + b.bufferSize * b.numBuffers,
           c.buffers ++ specSlots mgrID (List.replicate b.numBuffers b.bufferSize)
             c.currStruct c.bufferMem⟩ := by
      unfold initBin
      split
      · exact initEntries_closed mgrID b.bufferSize b.numBuffers c hc (by omega)
      · rename_i h0
        have h0 : b.numBuffers = 0 := by simpa using h0
        simp [h0, specSlots]
    rw [List.foldl_cons, hbin, ih _ (by simp [hc, specSlots_length])
      (by simp [specSlots_length]; omega)]
    rw [slotCapacities_cons, specSlots_append, e1, e2]
    simp only [List.length_replicate, List.sum_replicate, smul_eq_mul, List.append_assoc,
      InitCursor.mk.injEq]
    refine ⟨by omega, by rw [Nat.add_assoc], ?_⟩
    rw [Nat.mul_comm b.numBuffers]

theorem finalCursor_closed (S mgrID memory : Nat) (bins : BufferBins)
    (hN : totalBuffers bins < U32_MOD) :
    finalCursor S mgrID memory bins
      = ⟨totalBuffers bins, memory + totalBuffers bins * S + payloadBytes bins,
         specSlotTable mgrID bins (memory + totalBuffers bins * S)⟩ := by
  unfold finalCursor
  rw [foldl_initBin_closed mgrID bins _ rfl (by simpa using hN), computeSizes_eq]
  simp [Nat.mod_eq_of_lt hN, specSlotTable]

theorem sum_take_le (l : List Nat) (i j : Nat) (h : i ≤ j) :
    (l.take i).sum ≤ (l.take j).sum := by
  induction l generalizing i j with
  | nil => simp
  | cons x rest ih =>
    cases i with
    | zero => simp
    | succ i =>
      cases j with
      | zero => omega
      | succ j =>
        simp only [List.take_succ_cons, List.sum_cons]
        have := ih i j (by omega)
        omega

theorem sum_take_succ (l : List Nat) (i x : Nat) (h : l[i]? = some x) :
    (l.take (i + 1)).sum = (l.take i).sum + x := by
  rw [List.take_succ, h]
  simp

theorem setup_done_layout (S : Nat) (st st1 : BufferManagerComponentImpl)
    (mgrID memID : Nat) (allocator : Fw.MemAllocator) (bins : BufferBins)
    (h : setup S st mgrID memID allocator bins = .done st1 ())
    (hN : totalBuffers bins < U32_MOD) :
    totalBytes S bins < U32_MOD
    ∧ st1.m_numStructs = totalBuffers bins
    ∧ st1.m_bufferBins = bins
    ∧ st1.m_buffers = specSlotTable mgrID bins
        ((allocator memID (totalBytes S bins)).1 + totalBuffers bins * S) := by
  obtain ⟨_, _, a3, _, rfl⟩ := setup_done S st st1 mgrID memID allocator bins h
  rw [finalCursor_closed S mgrID _ bins hN] at a3
  have hsz := computeSizes_eq S bins
  have hB : totalBytes S bins < U32_MOD := by
    have h1 : (computeSizes S bins).memorySize = totalBytes S bins % U32_MOD := by
      rw [hsz]
    have h2 := Nat.mod_lt (totalBytes S bins) U32_MOD_pos
    have h3 := totalBytes_eq S bins
    simp only at a3
    omega
  have hms : (computeSizes S bins).memorySize = totalBytes S bins := by
    rw [hsz]; exact Nat.mod_eq_of_lt hB
  have hns : (computeSizes S bins).numStructs = totalBuffers bins := by
    rw [hsz]; exact Nat.mod_eq_of_lt hN
  refine ⟨hB, hns, rfl, ?_⟩
  show (finalCursor S mgrID _ bins).buffers = _
  rw [finalCursor_closed S mgrID _ bins hN, hms]

theorem slotCapacities_sorted (bins : BufferBins) (h : ascendingBins bins) :
    (slotCapacities bins).Pairwise (fun x y => x ≤ y) := by
  induction bins with
  | nil => simp [slotCapacities]
  | cons b rest ih =>
    rw [slotCapacities_cons, List.pairwise_append]
    by_cases h0 : b.numBuffers = 0
    · have hrest : ascendingBins rest := by
        unfold ascendingBins at h ⊢
        rw [List.filter_cons] at h
        simpa [h0] using h
      refine ⟨by simp [h0], ih hrest, ?_⟩
      intro a ha
      simp [h0] at ha
    · have hcons : (∀ x ∈ (rest.filter (fun b => b.numBuffers ≠ 0)).map
            (fun b => b.bufferSize), b.bufferSize ≤ x) ∧ ascendingBins rest := by
        unfold ascendingBins at h ⊢
        rw [List.filter_cons] at h
        simp only [h0, ne_eq, not_false_eq_true, decide_True, if_true, List.map_cons,
          List.pairwise_cons] at h
        exact h
      refine ⟨List.pairwise_replicate.2 (Or.inr (le_refl _)), ih hcons.2, ?_⟩
      intro a ha c hc
      have ha2 : a = b.bufferSize := (List.mem_replicate.1 ha).2
      subst ha2
      obtain ⟨b1, hb1, hc1⟩ := List.mem_flatMap.1 hc
      obtain ⟨hn1, rfl⟩ := List.mem_replicate.1 hc1
      apply hcons.1
      apply List.mem_map.2
      exact ⟨b1, List.mem_filter.2 ⟨hb1, by simpa using hn1⟩, rfl⟩

theorem run_capacities (st : BufferManagerComponentImpl)
    (hist : List BufferManagerComponentImpl) (h : Run st hist)
    (hN : totalBuffers st.m_bufferBins < U32_MOD) :
    st.m_numStructs = totalBuffers st.m_bufferBins
    ∧ st.m_buffers.map (fun c => c.size) = slotCapacities st.m_bufferBins := by
  have hsize : ∀ (l1 l2 : List AllocatedBuffer),
      l1.map (fun c => (c.memory, c.size)) = l2.map (fun c => (c.memory, c.size)) →
      l1.map (fun c => c.size) = l2.map (fun c => c.size) := by
    intro l1 l2 he
    have := congrArg (List.map Prod.snd) he
    simpa [List.map_map] using this
  induction h with
  | setup S mgrID memID allocator bins st h =>
    have hb : st.m_bufferBins = bins := by
      obtain ⟨_, _, _, _, rfl⟩ := setup_done S construct st mgrID memID allocator bins h
      rfl
    rw [hb] at hN ⊢
    obtain ⟨_, h2, _, h4⟩ := setup_done_layout S construct st mgrID memID allocator bins h hN
    refine ⟨h2, ?_⟩
    rw [h4, specSlotTable, specSlots_size]
  | acquire st st1 hist p s ret hrun h ih =>
    have hb : st1.m_bufferBins = st.m_bufferBins := by
      obtain ⟨_, hcase⟩ := acquire_done st st1 p s ret h
      rcases hcase with ⟨i, b, _, rfl, _⟩ | ⟨_, rfl, _⟩ <;> rfl
    rw [hb] at hN ⊢
    obtain ⟨h1, h2⟩ := ih hN
    exact ⟨by rw [(acquire_step st st1 p s ret h).1, h1],
      by rw [hsize _ _ (acquire_geometry st st1 p s ret h), h2]⟩
  | release st st1 hist p fw hrun h ih =>
    have hb : st1.m_bufferBins = st.m_bufferBins := by
      obtain ⟨_, hcase⟩ := release_done st st1 p fw h
      rcases hcase with ⟨_, rfl⟩ | ⟨_, _, _, b, _, _, _, _, rfl⟩ <;> rfl
    rw [hb] at hN ⊢
    obtain ⟨h1, h2⟩ := ih hN
    exact ⟨by rw [(release_step st st1 p fw h).1, h1],
      by rw [hsize _ _ (release_geometry st st1 p fw h), h2]⟩

/-! ## Acquire: `bufferGetCallee_handler` -/

/-- C1: in every set-up pool state, for every requested size `s`, if some
slot is unallocated with capacity greater than `s`, then
`bufferGetCallee_handler` returns the stored handle of the slot `i` with
the lowest id among the unallocated slots of capacity greater than `s`
(the handle carries `bufferID = i`), marks exactly that slot allocated, and
every slot with a smaller id is allocated or has capacity at most `s`.
With bins `[(8,2),(16,3)]`, after two requests of size 5 have taken slots 0
and 1, a third request of size 5 returns slot 2, of capacity 16. -/
theorem acquire_first_fit :
    (∀ (st : BufferManagerComponentImpl) (portNum : Int) (s : Nat),
      Reachable st →
      (∃ j c, slot? st j = some c ∧ c.allocated = false ∧ s < c.size) →
      ∃ i b st1,
        bufferGetCallee_handler st portNum s = .done st1 b.buff
        ∧ slot? st i = some b ∧ b.allocated = false ∧ s < b.size
        ∧ b.buff.bufferID = i
        ∧ (∀ j c, slot? st j = some c → c.allocated = false → s < c.size → i ≤ j)
        ∧ (∀ j c, j < i → slot? st j = some c → c.allocated = true ∨ c.size ≤ s)
        ∧ st1.m_buffers = st.m_buffers.set i { b with allocated := true }
        ∧ st1.m_numStructs = st.m_numStructs)
    ∧ (∀ (S mgrID memID : Nat) (allocator : Fw.MemAllocator) (portNum : Int)
        (st0 : BufferManagerComponentImpl),
        setup S construct mgrID memID allocator exampleBins = .done st0 () →
        ∃ st1 st2 st3 h1 h2 h3 b,
          bufferGetCallee_handler st0 portNum 5 = .done st1 h1 ∧ h1.bufferID = 0
          ∧ bufferGetCallee_handler st1 portNum 5 = .done st2 h2 ∧ h2.bufferID = 1
          ∧ bufferGetCallee_handler st2 portNum 5 = .done st3 h3 ∧ h3.bufferID = 2
          ∧ h3.size = 16 ∧ slot? st2 2 = some b ∧ b.size = 16 ∧ b.buff = h3) := by
  constructor
  · intro st portNum s hst ⟨j, c, hc, hca, hcs⟩
    have hinv := reachable_inv st hst
    rw [slot?_eq_some] at hc
    cases hf : findBuffer st.m_buffers s 0 st.m_numStructs with
    | none =>
      exact absurd ⟨hca, hcs⟩
        (findBuffer_none _ _ _ _ hf j c (Nat.zero_le _) (by omega) hc.2)
    | some ib =>
      obtain ⟨i, b⟩ := ib
      obtain ⟨_, hi, hb, ha, hsz, hmin⟩ := findBuffer_some _ _ _ _ _ _ hf
      refine ⟨i, b, acquired st i b, acquire_found st portNum s i b hinv.isSetup hf,
        (slot?_eq_some st i b).2 ⟨by omega, hb⟩, ha, hsz, (hinv.handle i b hb).1,
        ?_, ?_, rfl, rfl⟩
      · intro k d hd hda hds
        rw [slot?_eq_some] at hd
        by_contra hlt
        exact hmin k d (Nat.zero_le _) (by omega) hd.2 ⟨hda, hds⟩
      · intro k d hki hd
        rw [slot?_eq_some] at hd
        have := hmin k d (Nat.zero_le _) hki hd.2
        cases hda : d.allocated with
        | true => exact Or.inl rfl
        | false =>
          right
          by_contra hgt
          exact this ⟨hda, by omega⟩
  · intro S mgrID memID allocator portNum st0 h
    obtain ⟨hs0, hn0, a, hb0⟩ := example_setup S mgrID memID allocator st0 h
    have f0 : findBuffer st0.m_buffers 5 0 st0.m_numStructs
        = some (0, ⟨⟨mgrID, 0, a, 8⟩, a, 8, false⟩) := by
      rw [hb0, hn0]; simp [findBuffer, exampleSlots]
    have e0 := acquire_found st0 portNum 5 _ _ hs0 f0
    have f1 : findBuffer (acquired st0 0 ⟨⟨mgrID, 0, a, 8⟩, a, 8, false⟩).m_buffers 5 0
        (acquired st0 0 ⟨⟨mgrID, 0, a, 8⟩, a, 8, false⟩).m_numStructs
        = some (1, ⟨⟨mgrID, 1, a + 8, 8⟩, a + 8, 8, false⟩) := by
      simp [acquired, hb0, hn0, findBuffer, exampleSlots]
    have e1 := acquire_found _ portNum 5 _ _ (by exact hs0) f1
    have f2 : findBuffer
        (acquired (acquired st0 0 ⟨⟨mgrID, 0, a, 8⟩, a, 8, false⟩) 1
          ⟨⟨mgrID, 1, a + 8, 8⟩, a + 8, 8, false⟩).m_buffers 5 0
        (acquired (acquired st0 0 ⟨⟨mgrID, 0, a, 8⟩, a, 8, false⟩) 1
          ⟨⟨mgrID, 1, a + 8, 8⟩, a + 8, 8, false⟩).m_numStructs
        = some (2, ⟨⟨mgrID, 2, a + 16, 16⟩, a + 16, 16, false⟩) := by
      simp [acquired, hb0, hn0, findBuffer, exampleSlots]
    have e2 := acquire_found _ portNum 5 _ _ (by exact hs0) f2
    refine ⟨_, _, _, _, _, _, ⟨⟨mgrID, 2, a + 16, 16⟩, a + 16, 16, false⟩,
      e0, rfl, e1, rfl, e2, rfl, rfl, ?_, rfl, rfl⟩
    rw [slot?_eq_some]
    simp [acquired, hb0, hn0, exampleSlots]

theorem acquire_first_fit_witness :
    Reachable examplePool2
    ∧ (∃ j c, slot? examplePool2 j = some c ∧ c.allocated = false ∧ 5 < c.size)
    ∧ (∃ i b st1,
        bufferGetCallee_handler examplePool2 0 5 = .done st1 b.buff
        ∧ slot? examplePool2 i = some b ∧ b.allocated = false ∧ 5 < b.size
        ∧ b.buff.bufferID = i
        ∧ (∀ j c, slot? examplePool2 j = some c → c.allocated = false → 5 < c.size → i ≤ j)
        ∧ (∀ j c, j < i → slot? examplePool2 j = some c → c.allocated = true ∨ c.size ≤ 5)
        ∧ st1.m_buffers = examplePool2.m_buffers.set i { b with allocated := true }
        ∧ st1.m_numStructs = examplePool2.m_numStructs)
    ∧ setup 40 construct 7 0 (fixedAllocator 1000) exampleBins = .done examplePool ()
    ∧ (∃ st1 st2 st3 h1 h2 h3 b,
        bufferGetCallee_handler examplePool 0 5 = .done st1 h1 ∧ h1.bufferID = 0
        ∧ bufferGetCallee_handler st1 0 5 = .done st2 h2 ∧ h2.bufferID = 1
        ∧ bufferGetCallee_handler st2 0 5 = .done st3 h3 ∧ h3.bufferID = 2
        ∧ h3.size = 16 ∧ slot? st2 2 = some b ∧ b.size = 16 ∧ b.buff = h3) :=
  ⟨examplePool2_reachable, ⟨2, ⟨⟨7, 2, 1216, 16⟩, 1216, 16, false⟩, by decide⟩,
    acquire_first_fit.1 examplePool2 0 5 examplePool2_reachable
      ⟨2, ⟨⟨7, 2, 1216, 16⟩, 1216, 16, false⟩, by decide⟩,
    by decide,
    acquire_first_fit.2 40 7 0 (fixedAllocator 1000) 0 examplePool (by decide)⟩

/-- C2: in every set-up pool state a handle returned by a successful
`bufferGetCallee_handler` call for size `s` has size, and names a slot of
capacity, strictly greater than `s`; when every unallocated slot has
capacity at most `s` (in particular exactly `s`) the call returns the empty
buffer. On a freshly set-up pool with bins `[(8,2),(16,3)]` a request of
size 5 returns a slot of capacity 8 and a request of size 8 returns a slot
of capacity 16. -/
theorem acquire_strictly_larger :
    (∀ (st st1 : BufferManagerComponentImpl) (portNum : Int) (s : Nat) (h : Fw.Buffer),
      Reachable st →
      bufferGetCallee_handler st portNum s = .done st1 h →
      h ≠ Fw.Buffer.empty →
      s < h.size
      ∧ ∃ b, slot? st h.bufferID = some b ∧ b.buff = h ∧ b.size = h.size ∧ s < b.size
          ∧ b.allocated = false)
    ∧ (∀ (st : BufferManagerComponentImpl) (portNum : Int) (s : Nat),
      Reachable st →
      (∀ j c, slot? st j = some c → c.allocated = false → c.size ≤ s) →
      ∃ st1, bufferGetCallee_handler st portNum s = .done st1 Fw.Buffer.empty)
    ∧ (∀ (S mgrID memID : Nat) (allocator : Fw.MemAllocator) (portNum : Int)
        (st0 : BufferManagerComponentImpl),
        setup S construct mgrID memID allocator exampleBins = .done st0 () →
        ∃ st1 h1 b1 st2 h2 b2,
          bufferGetCallee_handler st0 portNum 5 = .done st1 h1
          ∧ slot? st0 h1.bufferID = some b1 ∧ b1.buff = h1 ∧ b1.size = 8 ∧ h1.size = 8
          ∧ bufferGetCallee_handler st0 portNum 8 = .done st2 h2
          ∧ slot? st0 h2.bufferID = some b2 ∧ b2.buff = h2 ∧ b2.size = 16
          ∧ h2.size = 16) := by
  refine ⟨?_, ?_, ?_⟩
  · intro st st1 portNum s h hst hdone hne
    have hinv := reachable_inv st hst
    obtain ⟨_, hcase⟩ := acquire_done st st1 portNum s h hdone
    rcases hcase with ⟨i, b, hf, _, rfl⟩ | ⟨_, _, rfl⟩
    · obtain ⟨_, hi, hb, ha, hsz, _⟩ := findBuffer_some _ _ _ _ _ _ hf
      obtain ⟨h1, _, _, h4⟩ := hinv.handle i b hb
      refine ⟨by omega, b, ?_, rfl, h4.symm, hsz, ha⟩
      rw [h1, slot?_eq_some]
      exact ⟨by omega, hb⟩
    · exact absurd rfl hne
  · intro st portNum s hst hall
    have hinv := reachable_inv st hst
    cases hf : findBuffer st.m_buffers s 0 st.m_numStructs with
    | none => exact ⟨_, acquire_none st portNum s hinv.isSetup hf⟩
    | some ib =>
      obtain ⟨i, b⟩ := ib
      obtain ⟨_, hi, hb, ha, hsz, _⟩ := findBuffer_some _ _ _ _ _ _ hf
      have := hall i b ((slot?_eq_some st i b).2 ⟨by omega, hb⟩) ha
      omega
  · intro S mgrID memID allocator portNum st0 h
    obtain ⟨hs0, hn0, a, hb0⟩ := example_setup S mgrID memID allocator st0 h
    have f5 : findBuffer st0.m_buffers 5 0 st0.m_numStructs
        = some (0, ⟨⟨mgrID, 0, a, 8⟩, a, 8, false⟩) := by
      rw [hb0, hn0]; simp [findBuffer, exampleSlots]
    have f8 : findBuffer st0.m_buffers 8 0 st0.m_numStructs
        = some (2, ⟨⟨mgrID, 2, a + 16, 16⟩, a + 16, 16, false⟩) := by
      rw [hb0, hn0]; simp [findBuffer, exampleSlots]
    refine ⟨_, _, ⟨⟨mgrID, 0, a, 8⟩, a, 8, false⟩, _, _,
      ⟨⟨mgrID, 2, a + 16, 16⟩, a + 16, 16, false⟩,
      acquire_found st0 portNum 5 _ _ hs0 f5, ?_, rfl, rfl, rfl,
      acquire_found st0 portNum 8 _ _ hs0 f8, ?_, rfl, rfl, rfl⟩
    · rw [slot?_eq_some]; simp [hb0, hn0, exampleSlots]
    · rw [slot?_eq_some]; simp [hb0, hn0, exampleSlots]

theorem acquire_strictly_larger_witness :
    Reachable examplePool
    ∧ bufferGetCallee_handler examplePool 0 8
        = .done (bufferGetCallee_handler examplePool 0 8).state ⟨7, 2, 1216, 16⟩
    ∧ (⟨7, 2, 1216, 16⟩ : Fw.Buffer) ≠ Fw.Buffer.empty
    ∧ (8 < (⟨7, 2, 1216, 16⟩ : Fw.Buffer).size
      ∧ ∃ b, slot? examplePool (⟨7, 2, 1216, 16⟩ : Fw.Buffer).bufferID = some b
        ∧ b.buff = ⟨7, 2, 1216, 16⟩ ∧ b.size = (⟨7, 2, 1216, 16⟩ : Fw.Buffer).size
        ∧ 8 < b.size ∧ b.allocated = false)
    ∧ (∀ j c, slot? examplePool j = some c → c.allocated = false → c.size ≤ 16)
    ∧ (∃ st1, bufferGetCallee_handler examplePool 0 16 = .done st1 Fw.Buffer.empty)
    ∧ setup 40 construct 7 0 (fixedAllocator 1000) exampleBins = .done examplePool ()
    ∧ (∃ st1 h1 b1 st2 h2 b2,
        bufferGetCallee_handler examplePool 0 5 = .done st1 h1
        ∧ slot? examplePool h1.bufferID = some b1 ∧ b1.buff = h1 ∧ b1.size = 8 ∧ h1.size = 8
        ∧ bufferGetCallee_handler examplePool 0 8 = .done st2 h2
        ∧ slot? examplePool h2.bufferID = some b2 ∧ b2.buff = h2 ∧ b2.size = 16
        ∧ h2.size = 16) :=
  have hall : ∀ j c, slot? examplePool j = some c → c.allocated = false → c.size ≤ 16 := by
    intro j c hc _
    have hj : j < 5 := ((slot?_eq_some examplePool j c).1 hc).1
    have hc2 : examplePool.m_buffers[j]? = some c := ((slot?_eq_some examplePool j c).1 hc).2
    have hbufs : examplePool.m_buffers = exampleSlots 7 1200 := by decide
    rw [hbufs] at hc2
    have : j = 0 ∨ j = 1 ∨ j = 2 ∨ j = 3 ∨ j = 4 := by omega
    rcases this with rfl | rfl | rfl | rfl | rfl <;>
      (simp [exampleSlots] at hc2; subst hc2; simp)
  ⟨examplePool_reachable, by decide, by decide,
    acquire_strictly_larger.1 examplePool (bufferGetCallee_handler examplePool 0 8).state
      0 8 ⟨7, 2, 1216, 16⟩ examplePool_reachable (by decide) (by decide),
    hall,
    acquire_strictly_larger.2.1 examplePool 0 16 examplePool_reachable hall,
    by decide,
    acquire_strictly_larger.2.2 40 7 0 (fixedAllocator 1000) 0 examplePool (by decide)⟩

/-- C3: in every set-up pool state `bufferGetCallee_handler` returns without
a failed assertion, and it returns the empty buffer if and only if no slot
is both unallocated and of capacity greater than `s`; in that case the state
it leaves differs from the one before only in `m_noBuffs` (incremented) and
in the calls emitted (the total-buffers channel that every request writes,
the no-buffers warning and the no-buffers channel): the `allocated` flag
of every slot, `m_currBuffs` and `m_highWater` are unchanged. -/
theorem acquire_empty_iff (st : BufferManagerComponentImpl) (portNum : Int) (s : Nat)
    (hst : Reachable st) :
    (∃ st1 h, bufferGetCallee_handler st portNum s = .done st1 h)
    ∧ ((∃ st1, bufferGetCallee_handler st portNum s = .done st1 Fw.Buffer.empty)
        ↔ ¬ ∃ j c, slot? st j = some c ∧ c.allocated = false ∧ s < c.size)
    ∧ (∀ st1, bufferGetCallee_handler st portNum s = .done st1 Fw.Buffer.empty →
        st1 = { st with
                  m_noBuffs := (st.m_noBuffs + 1) % U32_MOD
                  emitted := st.emitted ++
                    [Emission.tlmWrite_TotalBuffs st.m_numStructs,
                     Emission.log_WARNING_HI_NoBuffsAvailable s,
                     Emission.tlmWrite_NoBuffs ((st.m_noBuffs + 1) % U32_MOD)] }
        ∧ st1.m_buffers = st.m_buffers ∧ st1.m_numStructs = st.m_numStructs
        ∧ st1.m_currBuffs = st.m_currBuffs ∧ st1.m_highWater = st.m_highWater) := by
  have hinv := reachable_inv st hst
  have hempty : ∀ st1, bufferGetCallee_handler st portNum s = .done st1 Fw.Buffer.empty →
      findBuffer st.m_buffers s 0 st.m_numStructs = none ∧ st1 = refused st s := by
    intro st1 hdone
    obtain ⟨_, hcase⟩ := acquire_done st st1 portNum s _ hdone
    rcases hcase with ⟨i, b, hf, _, hret⟩ | ⟨hf, hst1, _⟩
    · obtain ⟨_, _, hb, _, hsz, _⟩ := findBuffer_some _ _ _ _ _ _ hf
      have h4 := (hinv.handle i b hb).2.2.2
      have : b.buff.size = 0 := by rw [← hret]; rfl
      omega
    · exact ⟨hf, hst1⟩
  refine ⟨?_, ⟨?_, ?_⟩, ?_⟩
  · cases hf : findBuffer st.m_buffers s 0 st.m_numStructs with
    | none => exact ⟨_, _, acquire_none st portNum s hinv.isSetup hf⟩
    | some ib => exact ⟨_, _, acquire_found st portNum s ib.1 ib.2 hinv.isSetup hf⟩
  · rintro ⟨st1, hdone⟩ ⟨j, c, hc, hca, hcs⟩
    rw [slot?_eq_some] at hc
    exact findBuffer_none _ _ _ _ (hempty st1 hdone).1 j c (Nat.zero_le _) (by omega) hc.2
      ⟨hca, hcs⟩
  · intro hno
    cases hf : findBuffer st.m_buffers s 0 st.m_numStructs with
    | none => exact ⟨_, acquire_none st portNum s hinv.isSetup hf⟩
    | some ib =>
      obtain ⟨i, b⟩ := ib
      obtain ⟨_, hi, hb, ha, hsz, _⟩ := findBuffer_some _ _ _ _ _ _ hf
      exact absurd ⟨i, b, (slot?_eq_some st i b).2 ⟨by omega, hb⟩, ha, hsz⟩ hno
  · intro st1 hdone
    obtain ⟨_, rfl⟩ := hempty st1 hdone
    refine ⟨?_, rfl, rfl, rfl, rfl⟩
    simp [refused]

theorem acquire_empty_iff_witness :
    Reachable examplePool
    ∧ (∃ st1 h, bufferGetCallee_handler examplePool 0 16 = .done st1 h)
    ∧ ((∃ st1, bufferGetCallee_handler examplePool 0 16 = .done st1 Fw.Buffer.empty)
        ↔ ¬ ∃ j c, slot? examplePool j = some c ∧ c.allocated = false ∧ 16 < c.size)
    ∧ (∀ st1, bufferGetCallee_handler examplePool 0 16 = .done st1 Fw.Buffer.empty →
        st1 = { examplePool with
                  m_noBuffs := (examplePool.m_noBuffs + 1) % U32_MOD
                  emitted := examplePool.emitted ++
                    [Emission.tlmWrite_TotalBuffs examplePool.m_numStructs,
                     Emission.log_WARNING_HI_NoBuffsAvailable 16,
                     Emission.tlmWrite_NoBuffs ((examplePool.m_noBuffs + 1) % U32_MOD)] }
        ∧ st1.m_buffers = examplePool.m_buffers
        ∧ st1.m_numStructs = examplePool.m_numStructs
        ∧ st1.m_currBuffs = examplePool.m_currBuffs
        ∧ st1.m_highWater = examplePool.m_highWater) :=
  ⟨examplePool_reachable, acquire_empty_iff examplePool 0 16 examplePool_reachable⟩

/-! ## Release: `bufferSendIn_handler` -/

/-- C4: in every set-up pool state with `N = m_numStructs` slots, for every
buffer `h` of non-zero size, `bufferSendIn_handler` returns normally if and
only if all five conditions hold: `h.bufferID < N`, `h.managerID` is the
manager id of the pool, the slot `h.bufferID` is allocated, `h.data` is the
memory address of that slot, and `h.size` is at most the size of that slot.
If one fails, an assertion fails and the state is the one before the call.
A slot exists for every id below `N`. -/
theorem release_normal_iff (st : BufferManagerComponentImpl) (portNum : Int)
    (h : Fw.Buffer) (hst : Reachable st) (hsz : h.size ≠ 0) :
    ((∃ st1, bufferSendIn_handler st portNum h = .done st1 ()) ↔
      (h.bufferID < st.m_numStructs ∧ h.managerID = st.m_mgrID ∧
        ∃ b, slot? st h.bufferID = some b ∧ b.allocated = true ∧ h.data = b.memory
          ∧ h.size ≤ b.size))
    ∧ (¬ (h.bufferID < st.m_numStructs ∧ h.managerID = st.m_mgrID ∧
        ∃ b, slot? st h.bufferID = some b ∧ b.allocated = true ∧ h.data = b.memory
          ∧ h.size ≤ b.size) →
        bufferSendIn_handler st portNum h = .assertFailed st)
    ∧ (h.bufferID < st.m_numStructs → ∃ b, slot? st h.bufferID = some b) := by
  have hinv := reachable_inv st hst
  refine ⟨⟨?_, ?_⟩, ?_, ?_⟩
  · rintro ⟨st1, hdone⟩
    obtain ⟨_, hcase⟩ := release_done st st1 portNum h hdone
    rcases hcase with ⟨h0, _⟩ | ⟨_, hid, hm, b, hb, ha, hd, hle, _⟩
    · exact absurd h0 hsz
    · exact ⟨hid, hm, b, (slot?_eq_some st _ b).2 ⟨hid, hb⟩, ha, hd, hle⟩
  · rintro ⟨hid, hm, b, hb, ha, hd, hle⟩
    rw [slot?_eq_some] at hb
    exact ⟨_, release_valid st portNum h b hinv.isSetup hsz hid hm hb.2 ha hd hle⟩
  · intro hbad
    apply release_invalid st portNum h hinv.isSetup hsz
    rintro ⟨hid, hm, b, hb, ha, hd, hle⟩
    exact hbad ⟨hid, hm, b, (slot?_eq_some st _ b).2 ⟨hid, hb⟩, ha, hd, hle⟩
  · intro hid
    have hlen : h.bufferID < st.m_buffers.length := Nat.lt_of_lt_of_le hid hinv.numLe
    exact ⟨st.m_buffers[h.bufferID], (slot?_eq_some st _ _).2
      ⟨hid, List.getElem?_eq_getElem hlen⟩⟩

theorem release_normal_iff_witness :
    Reachable examplePool1 ∧ (⟨7, 0, 1200, 3⟩ : Fw.Buffer).size ≠ 0
    ∧ ((∃ st1, bufferSendIn_handler examplePool1 0 ⟨7, 0, 1200, 3⟩ = .done st1 ()) ↔
      ((⟨7, 0, 1200, 3⟩ : Fw.Buffer).bufferID < examplePool1.m_numStructs
        ∧ (⟨7, 0, 1200, 3⟩ : Fw.Buffer).managerID = examplePool1.m_mgrID ∧
        ∃ b, slot? examplePool1 (⟨7, 0, 1200, 3⟩ : Fw.Buffer).bufferID = some b
          ∧ b.allocated = true ∧ (⟨7, 0, 1200, 3⟩ : Fw.Buffer).data = b.memory
          ∧ (⟨7, 0, 1200, 3⟩ : Fw.Buffer).size ≤ b.size)) :=
  ⟨examplePool1_reachable, by decide,
    (release_normal_iff examplePool1 0 ⟨7, 0, 1200, 3⟩ examplePool1_reachable
      (by decide)).1⟩

/-- C5 as stated fails: on the freshly set-up example pool the empty buffer
(size 0) names slot 0, which is free, its data address is not the memory
address of that slot and its manager id is not the one of the pool, and
`bufferSendIn_handler` still returns normally. -/
theorem release_mismatch_zero_size_returns :
    Reachable examplePool
    ∧ (∃ b, slot? examplePool Fw.Buffer.empty.bufferID = some b ∧ b.allocated = false
        ∧ Fw.Buffer.empty.data ≠ b.memory)
    ∧ Fw.Buffer.empty.managerID ≠ examplePool.m_mgrID
    ∧ (∃ st1, bufferSendIn_handler examplePool 0 Fw.Buffer.empty = .done st1 ())
    ∧ ¬ ∃ st1, bufferSendIn_handler examplePool 0 Fw.Buffer.empty = .assertFailed st1 :=
  ⟨examplePool_reachable, ⟨⟨⟨7, 0, 1200, 8⟩, 1200, 8, false⟩, by decide⟩, by decide,
    ⟨(bufferSendIn_handler examplePool 0 Fw.Buffer.empty).state, by decide⟩,
    fun ⟨st1, h1⟩ => by
      have h2 : bufferSendIn_handler examplePool 0 Fw.Buffer.empty
          = .done (bufferSendIn_handler examplePool 0 Fw.Buffer.empty).state () := by decide
      rw [h2] at h1
      cases h1⟩

/-- C5, amended: in every set-up pool state, for every buffer `h` of
non-zero size, if the slot named by `h` is free, or `h.data` is not the
memory address of that slot, or `h.managerID` is not the manager id of the
pool, then `bufferSendIn_handler` fails an assertion, with the state left
as it was; it does not return normally. -/
theorem release_mismatch_fatal (st : BufferManagerComponentImpl) (portNum : Int)
    (h : Fw.Buffer) (hst : Reachable st) (hsz : h.size ≠ 0)
    (hbad : (∃ b, slot? st h.bufferID = some b ∧ (b.allocated = false ∨ h.data ≠ b.memory))
      ∨ h.managerID ≠ st.m_mgrID) :
    bufferSendIn_handler st portNum h = .assertFailed st
    ∧ ¬ ∃ st1, bufferSendIn_handler st portNum h = .done st1 () := by
  have hinv := reachable_inv st hst
  have hfail : bufferSendIn_handler st portNum h = .assertFailed st := by
    apply release_invalid st portNum h hinv.isSetup hsz
    rintro ⟨hid, hm, b, hb, ha, hd, _⟩
    rcases hbad with ⟨c, hc, hcbad⟩ | hm2
    · rw [slot?_eq_some] at hc
      rw [hb] at hc
      obtain ⟨_, hc2⟩ := hc
      cases hc2
      rcases hcbad with hfree | hdata
      · rw [ha] at hfree; cases hfree
      · exact hdata hd
    · exact hm2 hm
  refine ⟨hfail, ?_⟩
  rintro ⟨st1, hdone⟩
  rw [hfail] at hdone
  cases hdone

theorem release_mismatch_fatal_witness :
    Reachable examplePool1 ∧ (⟨7, 1, 1208, 8⟩ : Fw.Buffer).size ≠ 0
    ∧ ((∃ b, slot? examplePool1 (⟨7, 1, 1208, 8⟩ : Fw.Buffer).bufferID = some b
          ∧ (b.allocated = false ∨ (⟨7, 1, 1208, 8⟩ : Fw.Buffer).data ≠ b.memory))
        ∨ (⟨7, 1, 1208, 8⟩ : Fw.Buffer).managerID ≠ examplePool1.m_mgrID)
    ∧ bufferSendIn_handler examplePool1 0 ⟨7, 1, 1208, 8⟩ = .assertFailed examplePool1
    ∧ ¬ ∃ st1, bufferSendIn_handler examplePool1 0 ⟨7, 1, 1208, 8⟩ = .done st1 () :=
  ⟨examplePool1_reachable, by decide,
    Or.inl ⟨⟨⟨7, 1, 1208, 8⟩, 1208, 8, false⟩, by decide⟩,
    release_mismatch_fatal examplePool1 0 ⟨7, 1, 1208, 8⟩ examplePool1_reachable (by decide)
      (Or.inl ⟨⟨⟨7, 1, 1208, 8⟩, 1208, 8, false⟩, by decide⟩)⟩

/-- C6: in every set-up pool state, for every buffer `h` of non-zero size
that passes the five checks, `bufferSendIn_handler` returns normally; it
clears the `allocated` flag of slot `h.bufferID`, sets the size of the handle
stored in that slot to the size of the slot, and lowers `m_currBuffs` by
exactly one. Memory address and size of that slot, every other tracking
struct, the number of slots and `m_highWater` are unchanged. -/
theorem release_frame (st : BufferManagerComponentImpl) (portNum : Int) (h : Fw.Buffer)
    (b : AllocatedBuffer) (hst : Reachable st) (hsz : h.size ≠ 0)
    (hid : h.bufferID < st.m_numStructs) (hm : h.managerID = st.m_mgrID)
    (hb : slot? st h.bufferID = some b) (ha : b.allocated = true)
    (hd : h.data = b.memory) (hle : h.size ≤ b.size) :
    ∃ st1, bufferSendIn_handler st portNum h = .done st1 ()
      ∧ slot? st1 h.bufferID
          = some { buff := { b.buff with size := b.size }
                   memory := b.memory
                   size := b.size
                   allocated := false }
      ∧ st1.m_currBuffs + 1 = st.m_currBuffs
      ∧ (∀ j, j ≠ h.bufferID → st1.m_buffers[j]? = st.m_buffers[j]?)
      ∧ st1.m_buffers.length = st.m_buffers.length
      ∧ st1.m_numStructs = st.m_numStructs
      ∧ st1.m_highWater = st.m_highWater := by
  have hinv := reachable_inv st hst
  rw [slot?_eq_some] at hb
  have hlen : h.bufferID < st.m_buffers.length := Nat.lt_of_lt_of_le hid hinv.numLe
  refine ⟨released st h.bufferID b,
    release_valid st portNum h b hinv.isSetup hsz hid hm hb.2 ha hd hle, ?_, ?_, ?_, ?_,
    rfl, rfl⟩
  · rw [slot?_eq_some]
    refine ⟨hid, ?_⟩
    show (st.m_buffers.set h.bufferID _)[h.bufferID]? = _
    rw [List.getElem?_set]
    simp [hlen, Fw.Buffer.setsize]
  · have h1 := released_count st h.bufferID b hid hb.2 ha
    have h2 := (released_inv st h.bufferID b hinv hid hb.2 ha).curr
    have h3 := hinv.curr
    omega
  · intro j hj
    show (st.m_buffers.set h.bufferID _)[j]? = _
    rw [List.getElem?_set_ne (Ne.symm hj)]
  · show (st.m_buffers.set h.bufferID _).length = _
    rw [List.length_set]

theorem release_frame_witness :
    Reachable examplePool1 ∧ (⟨7, 0, 1200, 3⟩ : Fw.Buffer).size ≠ 0
    ∧ ∃ st1, bufferSendIn_handler examplePool1 0 ⟨7, 0, 1200, 3⟩ = .done st1 ()
      ∧ slot? st1 0 = some ⟨⟨7, 0, 1200, 8⟩, 1200, 8, false⟩
      ∧ st1.m_currBuffs + 1 = examplePool1.m_currBuffs
      ∧ (∀ j, j ≠ 0 → st1.m_buffers[j]? = examplePool1.m_buffers[j]?)
      ∧ st1.m_buffers.length = examplePool1.m_buffers.length
      ∧ st1.m_numStructs = examplePool1.m_numStructs
      ∧ st1.m_highWater = examplePool1.m_highWater :=
  ⟨examplePool1_reachable, by decide,
    release_frame examplePool1 0 ⟨7, 0, 1200, 3⟩ ⟨⟨7, 0, 1200, 8⟩, 1200, 8, true⟩
      examplePool1_reachable (by decide) (by decide) (by decide) (by decide) (by decide)
      (by decide) (by decide)⟩

/-- C7: in every set-up pool state, for every buffer `h` of size zero,
whatever its buffer id, manager id and data address, `bufferSendIn_handler`
returns normally, and the state it leaves differs from the one before only
in `m_emptyBuffs` (incremented) and in the calls emitted (the zero-size
warning and the empty-buffers channel): the tracking structs, `m_currBuffs`
and `m_highWater` are unchanged. -/
theorem release_zero_size (st : BufferManagerComponentImpl) (portNum : Int)
    (h : Fw.Buffer) (hst : Reachable st) (h0 : h.size = 0) :
    bufferSendIn_handler st portNum h
      = .done { st with
                  m_emptyBuffs := (st.m_emptyBuffs + 1) % U32_MOD
                  emitted := st.emitted ++
                    [Emission.log_WARNING_HI_ZeroSizeBuffer,
                     Emission.tlmWrite_EmptyBuffs ((st.m_emptyBuffs + 1) % U32_MOD)] } ()
    ∧ (bufferSendIn_handler st portNum h).state.m_buffers = st.m_buffers
    ∧ (bufferSendIn_handler st portNum h).state.m_numStructs = st.m_numStructs
    ∧ (bufferSendIn_handler st portNum h).state.m_currBuffs = st.m_currBuffs
    ∧ (bufferSendIn_handler st portNum h).state.m_highWater = st.m_highWater := by
  have hz := release_zero st portNum h (reachable_inv st hst).isSetup h0
  rw [hz]
  exact ⟨rfl, rfl, rfl, rfl, rfl⟩

theorem release_zero_size_witness :
    Reachable examplePool1 ∧ (⟨3, 9, 77, 0⟩ : Fw.Buffer).size = 0
    ∧ bufferSendIn_handler examplePool1 0 ⟨3, 9, 77, 0⟩
      = .done { examplePool1 with
                  m_emptyBuffs := (examplePool1.m_emptyBuffs + 1) % U32_MOD
                  emitted := examplePool1.emitted ++
                    [Emission.log_WARNING_HI_ZeroSizeBuffer,
                     Emission.tlmWrite_EmptyBuffs
                       ((examplePool1.m_emptyBuffs + 1) % U32_MOD)] } () :=
  ⟨examplePool1_reachable, rfl,
    (release_zero_size examplePool1 0 ⟨3, 9, 77, 0⟩ examplePool1_reachable rfl).1⟩

/-! ## Counters -/

/-- C8: in every state reached from a freshly constructed component by one
`setup` and any finite sequence of handler calls that returned, `m_currBuffs`
is the number of slots whose `allocated` flag is set. -/
theorem currBuffs_eq_numAllocated (st : BufferManagerComponentImpl) (hst : Reachable st) :
    st.m_currBuffs = numAllocated st :=
  (reachable_inv st hst).curr

theorem currBuffs_eq_numAllocated_witness :
    Reachable examplePool2 ∧ numAllocated examplePool2 = 2
    ∧ examplePool2.m_currBuffs = numAllocated examplePool2 :=
  ⟨examplePool2_reachable, by decide,
    currBuffs_eq_numAllocated examplePool2 examplePool2_reachable⟩

/-- C9: along every run (one `setup` on a freshly constructed component, then
handler calls that returned), with `hist` the states passed through so far,
newest first and the constructed state last: `m_highWater` never decreases
from one state to the next, and in the current state it is the maximum of
the values that `m_currBuffs` has taken in the states so far (every such
value is at most `m_highWater`, and one of them equals it); it is 0 in the
constructed state. -/
theorem highWater_is_running_max (st : BufferManagerComponentImpl)
    (hist : List BufferManagerComponentImpl) (hrun : Run st hist) :
    List.Chain' (fun newer older => older.m_highWater ≤ newer.m_highWater) hist
    ∧ hist.head? = some st
    ∧ hist.getLast? = some construct ∧ construct.m_highWater = 0
    ∧ (∀ x ∈ hist, x.m_currBuffs ≤ st.m_highWater)
    ∧ (∃ x ∈ hist, x.m_currBuffs = st.m_highWater) := by
  induction hrun with
  | setup S mgrID memID allocator bins st h =>
    obtain ⟨_, _, _, _, rfl⟩ := setup_done S construct st mgrID memID allocator bins h
    refine ⟨?_, rfl, rfl, rfl, ?_, ?_⟩
    · simp [construct]
    · intro x hx
      simp only [List.mem_cons, List.mem_singleton, List.not_mem_nil, or_false] at hx
      rcases hx with rfl | rfl <;> simp [construct]
    · exact ⟨construct, by simp, rfl⟩
  | acquire st st1 hist p s ret hrun h ih =>
    obtain ⟨hchain, hhead, hlast, h0, hall, hex⟩ := ih
    obtain ⟨tl, rfl⟩ : ∃ tl, hist = st :: tl := by
      cases hist with
      | nil => simp at hhead
      | cons a tl => simp at hhead; exact ⟨tl, by rw [hhead]⟩
    obtain ⟨_, hcase⟩ := acquire_done st st1 p s ret h
    have hmono : st.m_highWater ≤ st1.m_highWater
        ∧ st1.m_currBuffs ≤ st1.m_highWater
        ∧ (st1.m_currBuffs = st1.m_highWater ∨ st1.m_highWater = st.m_highWater) := by
      rcases hcase with ⟨i, b, _, rfl, _⟩ | ⟨_, rfl, _⟩
      · simp only [acquired]
        split
        · rename_i hgt; exact ⟨by omega, le_refl _, Or.inl rfl⟩
        · rename_i hgt; exact ⟨le_refl _, by omega, Or.inr rfl⟩
      · exact ⟨le_refl _, hall st (by simp), Or.inr rfl⟩
    obtain ⟨h1, h2, h3⟩ := hmono
    refine ⟨?_, rfl, ?_, h0, ?_, ?_⟩
    · exact List.Chain'.cons h1 hchain
    · rw [List.getLast?_cons_cons]; exact hlast
    · intro x hx
      rcases List.mem_cons.1 hx with rfl | hx
      · exact h2
      · exact le_trans (hall x hx) h1
    · rcases h3 with h3 | h3
      · exact ⟨st1, by simp, h3⟩
      · obtain ⟨x, hx, hxe⟩ := hex
        exact ⟨x, List.mem_cons_of_mem _ hx, by rw [hxe, h3]⟩
  | release st st1 hist p fw hrun h ih =>
    obtain ⟨hchain, hhead, hlast, h0, hall, hex⟩ := ih
    obtain ⟨tl, rfl⟩ : ∃ tl, hist = st :: tl := by
      cases hist with
      | nil => simp at hhead
      | cons a tl => simp at hhead; exact ⟨tl, by rw [hhead]⟩
    have hinv := run_inv st _ hrun
    obtain ⟨_, hcase⟩ := release_done st st1 p fw h
    have hmono : st1.m_highWater = st.m_highWater ∧ st1.m_currBuffs ≤ st.m_currBuffs := by
      rcases hcase with ⟨_, rfl⟩ | ⟨_, hid, _, b, hb, ha, _, _, rfl⟩
      · exact ⟨rfl, le_refl _⟩
      · refine ⟨rfl, ?_⟩
        have h1 := released_count st _ b hid hb ha
        have h2 := (released_inv st _ b hinv hid hb ha).curr
        have h3 := hinv.curr
        omega
    obtain ⟨h1, h2⟩ := hmono
    refine ⟨?_, rfl, ?_, h0, ?_, ?_⟩
    · exact List.Chain'.cons (le_of_eq h1.symm) hchain
    · rw [List.getLast?_cons_cons]; exact hlast
    · intro x hx
      rw [h1]
      rcases List.mem_cons.1 hx with rfl | hx
      · exact le_trans h2 (hall st (by simp))
      · exact hall x hx
    · obtain ⟨x, hx, hxe⟩ := hex
      exact ⟨x, List.mem_cons_of_mem _ hx, by rw [hxe, h1]⟩

theorem highWater_is_running_max_witness :
    Run examplePool3 [examplePool3, examplePool2, examplePool1, examplePool, construct]
    ∧ examplePool3.m_currBuffs = 1 ∧ examplePool3.m_highWater = 2
    ∧ (∀ x ∈ [examplePool3, examplePool2, examplePool1, examplePool, construct],
        x.m_currBuffs ≤ examplePool3.m_highWater)
    ∧ (∃ x ∈ [examplePool3, examplePool2, examplePool1, examplePool, construct],
        x.m_currBuffs = examplePool3.m_highWater) :=
  ⟨examplePool3_run, by decide, by decide,
    (highWater_is_running_max examplePool3 _ examplePool3_run).2.2.2.2⟩

/-! ## Setup: sizes -/

/-- C10 as stated fails. With `sizeof(AllocatedBuffer) = 40` and the single
bin of two buffers of `2^31` bytes, `setup` asks the allocator for 80 bytes,
while the sum of `bufferSize * numBuffers` plus `N * sizeof(AllocatedBuffer)`
is `2^32 + 80`. With the bins of `2^32 - 1` buffers and one buffer, `setup`
sets `m_numStructs` to 0, while the sum of `numBuffers` is `2^32`. -/
theorem setup_totals_overflow :
    (setup 40 construct 7 0 (fixedAllocator 1000) overflowBins).state.emitted
        = [Emission.allocate 0 80]
    ∧ (setup 40 construct 7 0 (fixedAllocator 1000) overflowBins).state.m_numStructs = 2
    ∧ totalBytes 40 overflowBins = 4294967376
    ∧ (setup 40 construct 7 0 (fixedAllocator 0) overflowCountBins).state.m_numStructs = 0
    ∧ totalBuffers overflowCountBins = 4294967296 := by
  decide

/-- C10, amended: for any bin configuration whose totals fit the 32-bit
unsigned word (the sum `N` of `numBuffers`, and the sum of
`bufferSize * numBuffers` plus `N * sizeof(AllocatedBuffer)`), `setup` sets
`m_numStructs` to `N` and asks the allocator for exactly that number of
bytes, whatever the allocator answers; when `setup` completes it has written
exactly `N` tracking structs. Bins with `numBuffers = 0` contribute nothing:
the loop body leaves both totals as they are, and dropping these bins
changes neither total. -/
theorem setup_totals (S : Nat) (st : BufferManagerComponentImpl) (mgrID memID : Nat)
    (allocator : Fw.MemAllocator) (bins : BufferBins)
    (hN : totalBuffers bins < U32_MOD) (hB : totalBytes S bins < U32_MOD) :
    (setup S st mgrID memID allocator bins).state.m_numStructs = totalBuffers bins
    ∧ (setup S st mgrID memID allocator bins).state.emitted
        = st.emitted ++ [Emission.allocate memID (totalBytes S bins)]
    ∧ (∀ st1, setup S st mgrID memID allocator bins = .done st1 () →
        st1.m_numStructs = totalBuffers bins ∧ st1.m_buffers.length = totalBuffers bins)
    ∧ (∀ (acc : SizeTotals) (b : BufferBin), b.numBuffers = 0 → sizeStep S acc b = acc)
    ∧ computeSizes S (bins.filter (fun b => b.numBuffers ≠ 0)) = computeSizes S bins := by
  obtain ⟨h1, h2⟩ := setup_state S st mgrID memID allocator bins
  have hsz := computeSizes_eq S bins
  rw [Nat.mod_eq_of_lt hN, Nat.mod_eq_of_lt hB] at hsz
  rw [hsz] at h1 h2
  refine ⟨h1, h2, ?_, ?_, computeSizes_filter S bins⟩
  · intro st1 hdone
    have hst : (setup S st mgrID memID allocator bins).state = st1 := by rw [hdone]; rfl
    rw [hst] at h1
    refine ⟨h1, ?_⟩
    obtain ⟨_, _, _, _, rfl⟩ := setup_done S st st1 mgrID memID allocator bins hdone
    have := (foldl_initBin_length mgrID bins
      ⟨0, (allocator memID (computeSizes S bins).memorySize).1
            + (computeSizes S bins).numStructs * S, []⟩ rfl (by simpa using hN)).2
    simpa [finalCursor] using this
  · intro acc b h0
    simp [sizeStep, h0]

theorem setup_totals_witness :
    totalBuffers exampleBins < U32_MOD ∧ totalBytes 40 exampleBins < U32_MOD
    ∧ totalBuffers exampleBins = 5 ∧ totalBytes 40 exampleBins = 264
    ∧ (setup 40 construct 7 0 (fixedAllocator 1000) exampleBins).state.m_numStructs
        = totalBuffers exampleBins
    ∧ (setup 40 construct 7 0 (fixedAllocator 1000) exampleBins).state.emitted
        = construct.emitted ++ [Emission.allocate 0 (totalBytes 40 exampleBins)] :=
  ⟨by decide, by decide, by decide, by decide,
    (setup_totals 40 construct 7 0 (fixedAllocator 1000) exampleBins
      (by decide) (by decide)).1,
    (setup_totals 40 construct 7 0 (fixedAllocator 1000) exampleBins
      (by decide) (by decide)).2.1⟩

/-! ## Setup and the `m_setup` flag -/

/-- C12 as stated fails: on the example pool with one buffer handed out
(`m_setup` is true) a second `setup`, here with a region granted at address
2000, completes normally. -/
theorem setup_twice_completes :
    examplePool1.m_setup = true
    ∧ setup 40 examplePool1 7 0 (fixedAllocator 2000) exampleBins
        = .done (setup 40 examplePool1 7 0 (fixedAllocator 2000) exampleBins).state ()
    ∧ ¬ ∃ st1, setup 40 examplePool1 7 0 (fixedAllocator 2000) exampleBins
        = .assertFailed st1 :=
  ⟨by decide, by decide, fun ⟨st1, h1⟩ => by
    have h2 : setup 40 examplePool1 7 0 (fixedAllocator 2000) exampleBins
        = .done (setup 40 examplePool1 7 0 (fixedAllocator 2000) exampleBins).state () := by
      decide
    rw [h2] at h1
    cases h1⟩

/-- C12, amended: `setup` never reads `m_setup`. Called on a pool that has
already been set up, it completes normally exactly when the same call on a
freshly constructed component does; when it completes, `m_setup` is true,
every tracking struct of the new table is unallocated, and `m_currBuffs` and
`m_highWater` are what they were before the call. -/
theorem setup_ignores_m_setup (S : Nat) (st : BufferManagerComponentImpl)
    (mgrID memID : Nat) (allocator : Fw.MemAllocator) (bins : BufferBins)
    (h : st.m_setup = true) :
    ((∃ st1, setup S st mgrID memID allocator bins = .done st1 ())
      ↔ (∃ st0, setup S construct mgrID memID allocator bins = .done st0 ()))
    ∧ (∀ st1, setup S st mgrID memID allocator bins = .done st1 () →
        st1.m_setup = true
        ∧ (∀ (i : Nat) (b : AllocatedBuffer), st1.m_buffers[i]? = some b →
            b.allocated = false)
        ∧ st1.m_currBuffs = st.m_currBuffs ∧ st1.m_highWater = st.m_highWater) := by
  refine ⟨⟨?_, ?_⟩, ?_⟩
  · rintro ⟨st1, h1⟩
    obtain ⟨a1, a2, a3, a4, _⟩ := setup_done S st st1 mgrID memID allocator bins h1
    exact setup_completes S construct mgrID memID allocator bins a1 a2 a3 a4
  · rintro ⟨st0, h0⟩
    obtain ⟨a1, a2, a3, a4, _⟩ := setup_done S construct st0 mgrID memID allocator bins h0
    exact setup_completes S st mgrID memID allocator bins a1 a2 a3 a4
  · intro st1 h1
    obtain ⟨_, _, _, _, rfl⟩ := setup_done S st st1 mgrID memID allocator bins h1
    have hc : CursorInv mgrID
        (finalCursor S mgrID (allocator memID (computeSizes S bins).memorySize).1 bins) :=
      foldl_initBin_inv mgrID bins _ ⟨by simp, U32_MOD_pos, by simp⟩
    exact ⟨rfl, fun i b hb => (hc.written i b hb).1, rfl, rfl⟩

theorem setup_ignores_m_setup_witness :
    examplePool1.m_setup = true
    ∧ ((∃ st1, setup 40 examplePool1 7 0 (fixedAllocator 2000) exampleBins = .done st1 ())
      ↔ (∃ st0, setup 40 construct 7 0 (fixedAllocator 2000) exampleBins = .done st0 ())) :=
  ⟨by decide,
    (setup_ignores_m_setup 40 examplePool1 7 0 (fixedAllocator 2000) exampleBins
      (by decide)).1⟩

/-- C13: on a component whose `m_setup` is false (freshly constructed, or
after a `setup` call that failed an assertion) every call of
`bufferGetCallee_handler`, for every size, and every call of
`bufferSendIn_handler`, for every buffer, a buffer of size zero included,
fails its first assertion and leaves the state as it was. -/
theorem handlers_before_setup (st : BufferManagerComponentImpl)
    (h : st.m_setup = false) :
    (∀ (portNum : Int) (s : Nat), bufferGetCallee_handler st portNum s = .assertFailed st)
    ∧ (∀ (portNum : Int) (fw : Fw.Buffer),
        bufferSendIn_handler st portNum fw = .assertFailed st)
    ∧ (∀ (S mgrID memID : Nat) (allocator : Fw.MemAllocator) (bins : BufferBins)
        (st1 : BufferManagerComponentImpl),
        setup S st mgrID memID allocator bins = .assertFailed st1 →
        st1.m_setup = false
        ∧ (∀ (portNum : Int) (s : Nat),
            bufferGetCallee_handler st1 portNum s = .assertFailed st1)
        ∧ (∀ (portNum : Int) (fw : Fw.Buffer),
            bufferSendIn_handler st1 portNum fw = .assertFailed st1)) := by
  refine ⟨fun p s => acquire_unset st p s h, fun p fw => release_unset st p fw h, ?_⟩
  intro S mgrID memID allocator bins st1 hfail
  have h1 : st1.m_setup = false := by
    rw [setup_m_setup S st mgrID memID allocator bins st1 hfail, h]
  exact ⟨h1, fun p s => acquire_unset st1 p s h1, fun p fw => release_unset st1 p fw h1⟩

theorem handlers_before_setup_witness :
    construct.m_setup = false
    ∧ bufferGetCallee_handler construct 0 5 = .assertFailed construct
    ∧ bufferSendIn_handler construct 0 Fw.Buffer.empty = .assertFailed construct
    ∧ bufferSendIn_handler construct 0 ⟨7, 0, 1200, 8⟩ = .assertFailed construct :=
  ⟨rfl, (handlers_before_setup construct rfl).1 0 5,
    (handlers_before_setup construct rfl).2.1 0 Fw.Buffer.empty,
    (handlers_before_setup construct rfl).2.1 0 ⟨7, 0, 1200, 8⟩⟩

/-! ## Reuse of slots, stored handles, slot states -/

/-- C14: in every set-up pool state in which `bufferGetCallee_handler` for
size `s` returns a non-empty handle `h`, naming slot `h.bufferID` of capacity
`b.size`: if the caller sets the size of `h` to any `r` with
`1 ≤ r ≤ b.size` and gives it back with `bufferSendIn_handler`, then the next
`bufferGetCallee_handler` for size `s` returns the handle with the same
buffer id (and manager id and data address) whose size is the full capacity
`b.size`, whatever `r` was. -/
theorem release_then_acquire_same_slot (st st1 : BufferManagerComponentImpl)
    (portNum : Int) (s : Nat) (h : Fw.Buffer) (hst : Reachable st)
    (hacq : bufferGetCallee_handler st portNum s = .done st1 h)
    (hne : h ≠ Fw.Buffer.empty) :
    ∃ b, slot? st h.bufferID = some b ∧ b.buff = h ∧ h.size = b.size
      ∧ ∀ (r : Nat) (p2 p3 : Int), 1 ≤ r → r ≤ b.size →
          ∃ st2 st3,
            bufferSendIn_handler st1 p2 ⟨h.managerID, h.bufferID, h.data, r⟩ = .done st2 ()
            ∧ bufferGetCallee_handler st2 p3 s
                = .done st3 ⟨h.managerID, h.bufferID, h.data, b.size⟩ := by
  have hinv := reachable_inv st hst
  obtain ⟨_, hcase⟩ := acquire_done st st1 portNum s h hacq
  rcases hcase with ⟨i, b, hf, rfl, rfl⟩ | ⟨_, _, rfl⟩
  · obtain ⟨_, hi, hb, ha, hsz, _⟩ := findBuffer_some _ _ _ _ _ _ hf
    obtain ⟨e1, _, _, e4⟩ := hinv.handle i b hb
    refine ⟨b, ?_, rfl, e4, ?_⟩
    · rw [e1, slot?_eq_some]; exact ⟨by omega, hb⟩
    · intro r p2 p3 hr1 hr2
      obtain ⟨st2, hrel, hs2, hb2, hn2, _⟩ := roundtrip st p2 s i r b hinv hf hr1 hr2
      have hf2 : findBuffer st2.m_buffers s 0 st2.m_numStructs = some (i, b) := by
        rw [hb2, hn2]; exact hf
      have hacq2 := acquire_found st2 p3 s i b hs2 hf2
      refine ⟨st2, acquired st2 i b, hrel, ?_⟩
      rw [hacq2]
      congr 1
      cases b with
      | mk buff memory size allocated =>
        cases buff with
        | mk m id d sz =>
          simp only at e4
          subst e4
          rfl
  · exact absurd rfl hne

theorem release_then_acquire_same_slot_witness :
    Reachable examplePool
    ∧ bufferGetCallee_handler examplePool 0 5 = .done examplePool1 ⟨7, 0, 1200, 8⟩
    ∧ (⟨7, 0, 1200, 8⟩ : Fw.Buffer) ≠ Fw.Buffer.empty
    ∧ ∃ b, slot? examplePool 0 = some b ∧ b.buff = ⟨7, 0, 1200, 8⟩ ∧ 8 = b.size
      ∧ ∀ (r : Nat) (p2 p3 : Int), 1 ≤ r → r ≤ b.size →
          ∃ st2 st3,
            bufferSendIn_handler examplePool1 p2 ⟨7, 0, 1200, r⟩ = .done st2 ()
            ∧ bufferGetCallee_handler st2 p3 5 = .done st3 ⟨7, 0, 1200, b.size⟩ :=
  ⟨examplePool_reachable, by decide, by decide,
    release_then_acquire_same_slot examplePool examplePool1 0 5 ⟨7, 0, 1200, 8⟩
      examplePool_reachable (by decide) (by decide)⟩

/-- C19: in every set-up pool state, if `bufferGetCallee_handler` returns a
non-empty handle `h`, then `h.size ≥ 1`, and giving `h` back unmodified right
away passes every check of `bufferSendIn_handler`: the call returns, it is
not the size-zero warning (`m_emptyBuffs` stays), and afterwards the tracking
structs (so the `allocated` flag of every slot), the number of slots and
`m_currBuffs` are what they were before the request; `m_highWater` has not
decreased. -/
theorem acquire_release_roundtrip (st st1 : BufferManagerComponentImpl)
    (portNum : Int) (s : Nat) (h : Fw.Buffer) (hst : Reachable st)
    (hacq : bufferGetCallee_handler st portNum s = .done st1 h)
    (hne : h ≠ Fw.Buffer.empty) :
    1 ≤ h.size
    ∧ ∀ (p2 : Int), ∃ st2,
        bufferSendIn_handler st1 p2 h = .done st2 ()
        ∧ st2.m_buffers = st.m_buffers
        ∧ (∀ j, (slot? st2 j).map (fun c => c.allocated)
            = (slot? st j).map (fun c => c.allocated))
        ∧ st2.m_numStructs = st.m_numStructs
        ∧ st2.m_currBuffs = st.m_currBuffs
        ∧ st2.m_emptyBuffs = st.m_emptyBuffs
        ∧ st.m_highWater ≤ st2.m_highWater := by
  have hinv := reachable_inv st hst
  obtain ⟨_, hcase⟩ := acquire_done st st1 portNum s h hacq
  rcases hcase with ⟨i, b, hf, rfl, rfl⟩ | ⟨_, _, rfl⟩
  · obtain ⟨_, hi, hb, ha, hsz, _⟩ := findBuffer_some _ _ _ _ _ _ hf
    obtain ⟨e1, _, _, e4⟩ := hinv.handle i b hb
    refine ⟨by omega, ?_⟩
    intro p2
    obtain ⟨st2, hrel, _, hb2, hn2, hc2, he2, _, hh2⟩ :=
      roundtrip st p2 s i b.buff.size b hinv hf (by omega) (by omega)
    refine ⟨st2, hrel, hb2, ?_, hn2, hc2, he2, hh2⟩
    intro j
    simp only [slot?, hb2, hn2]
  · exact absurd rfl hne

theorem acquire_release_roundtrip_witness :
    Reachable examplePool1
    ∧ bufferGetCallee_handler examplePool1 0 5 = .done examplePool2 ⟨7, 1, 1208, 8⟩
    ∧ (⟨7, 1, 1208, 8⟩ : Fw.Buffer) ≠ Fw.Buffer.empty
    ∧ 1 ≤ (⟨7, 1, 1208, 8⟩ : Fw.Buffer).size
    ∧ ∀ (p2 : Int), ∃ st2,
        bufferSendIn_handler examplePool2 p2 ⟨7, 1, 1208, 8⟩ = .done st2 ()
        ∧ st2.m_buffers = examplePool1.m_buffers
        ∧ (∀ j, (slot? st2 j).map (fun c => c.allocated)
            = (slot? examplePool1 j).map (fun c => c.allocated))
        ∧ st2.m_numStructs = examplePool1.m_numStructs
        ∧ st2.m_currBuffs = examplePool1.m_currBuffs
        ∧ st2.m_emptyBuffs = examplePool1.m_emptyBuffs
        ∧ examplePool1.m_highWater ≤ st2.m_highWater :=
  ⟨examplePool1_reachable, by decide, by decide,
    acquire_release_roundtrip examplePool1 examplePool2 0 5 ⟨7, 1, 1208, 8⟩
      examplePool1_reachable (by decide) (by decide)⟩

/-- C15: in every state of a run (one `setup` on a constructed component,
then handler calls that returned) the handle stored in each slot `i` has
`bufferID = i`, the manager id of the pool, the memory address of slot `i` as
data address and the size of slot `i` as size; memory address and size of
every tracking struct, and the number of slots, are the same in every state
since `setup`; hence a non-empty handle returned by
`bufferGetCallee_handler` has the size (so at most the size) and, as data
address, the memory address of the slot it names. -/
theorem stored_handles_consistent (st : BufferManagerComponentImpl)
    (hist : List BufferManagerComponentImpl) (hrun : Run st hist) :
    (∀ i b, slot? st i = some b →
      b.buff.bufferID = i ∧ b.buff.managerID = st.m_mgrID ∧ b.buff.data = b.memory
        ∧ b.buff.size = b.size)
    ∧ (∀ x ∈ hist.dropLast, x.m_numStructs = st.m_numStructs
        ∧ x.m_buffers.map (fun c => (c.memory, c.size))
            = st.m_buffers.map (fun c => (c.memory, c.size)))
    ∧ (∀ (portNum : Int) (s : Nat) (st1 : BufferManagerComponentImpl) (h : Fw.Buffer),
        bufferGetCallee_handler st portNum s = .done st1 h → h ≠ Fw.Buffer.empty →
        ∃ b, slot? st h.bufferID = some b ∧ h.size = b.size ∧ h.size ≤ b.size
          ∧ h.data = b.memory) := by
  have hinv := run_inv st hist hrun
  refine ⟨?_, run_geometry st hist hrun, ?_⟩
  · intro i b hb
    rw [slot?_eq_some] at hb
    exact hinv.handle i b hb.2
  · intro portNum s st1 h hacq hne
    obtain ⟨_, hcase⟩ := acquire_done st st1 portNum s h hacq
    rcases hcase with ⟨i, b, hf, _, rfl⟩ | ⟨_, _, rfl⟩
    · obtain ⟨_, hi, hb, _, _, _⟩ := findBuffer_some _ _ _ _ _ _ hf
      obtain ⟨e1, _, e3, e4⟩ := hinv.handle i b hb
      refine ⟨b, ?_, e4, le_of_eq e4, e3⟩
      rw [e1, slot?_eq_some]; exact ⟨by omega, hb⟩
    · exact absurd rfl hne

theorem stored_handles_consistent_witness :
    Run examplePool3 [examplePool3, examplePool2, examplePool1, examplePool, construct]
    ∧ (∀ i b, slot? examplePool3 i = some b →
      b.buff.bufferID = i ∧ b.buff.managerID = examplePool3.m_mgrID
        ∧ b.buff.data = b.memory ∧ b.buff.size = b.size)
    ∧ (∀ x ∈ [examplePool3, examplePool2, examplePool1, examplePool],
        x.m_numStructs = examplePool3.m_numStructs
        ∧ x.m_buffers.map (fun c => (c.memory, c.size))
            = examplePool3.m_buffers.map (fun c => (c.memory, c.size))) :=
  ⟨examplePool3_run, (stored_handles_consistent examplePool3 _ examplePool3_run).1,
    (stored_handles_consistent examplePool3 _ examplePool3_run).2.1⟩

/-- C16: the states of a slot. Every slot is unallocated when `setup` has
completed. A call of `bufferGetCallee_handler` that returns leaves the number
of slots and every slot but at most one as they were, and a slot whose
`allocated` flag it changes goes from unallocated to allocated. A call of
`bufferSendIn_handler` that returns leaves the number of slots and every slot
but at most one as they were, and a slot whose `allocated` flag it changes
goes from allocated to unallocated. -/
theorem slot_state_machine :
    (∀ (S mgrID memID : Nat) (allocator : Fw.MemAllocator) (bins : BufferBins)
        (st st1 : BufferManagerComponentImpl),
        setup S st mgrID memID allocator bins = .done st1 () →
        ∀ i b, slot? st1 i = some b → b.allocated = false)
    ∧ (∀ (st st1 : BufferManagerComponentImpl) (portNum : Int) (s : Nat) (ret : Fw.Buffer),
        bufferGetCallee_handler st portNum s = .done st1 ret →
        st1.m_numStructs = st.m_numStructs
        ∧ (∃ i, ∀ j, j ≠ i → slot? st1 j = slot? st j)
        ∧ (∀ j, (slot? st1 j).isSome = (slot? st j).isSome)
        ∧ (∀ j b b1, slot? st j = some b → slot? st1 j = some b1 →
            b1.allocated ≠ b.allocated → b.allocated = false ∧ b1.allocated = true))
    ∧ (∀ (st st1 : BufferManagerComponentImpl) (portNum : Int) (fw : Fw.Buffer),
        bufferSendIn_handler st portNum fw = .done st1 () →
        st1.m_numStructs = st.m_numStructs
        ∧ (∃ i, ∀ j, j ≠ i → slot? st1 j = slot? st j)
        ∧ (∀ j, (slot? st1 j).isSome = (slot? st j).isSome)
        ∧ (∀ j b b1, slot? st j = some b → slot? st1 j = some b1 →
            b1.allocated ≠ b.allocated → b.allocated = true ∧ b1.allocated = false)) := by
  have hsame : ∀ (st st1 : BufferManagerComponentImpl),
      st1.m_numStructs = st.m_numStructs → st1.m_buffers = st.m_buffers →
      ∀ j, slot? st1 j = slot? st j := by
    intro st st1 hn he j
    simp only [slot?, hn, he]
  refine ⟨?_, ?_, ?_⟩
  · intro S mgrID memID allocator bins st st1 h i b hb
    obtain ⟨_, _, _, _, rfl⟩ := setup_done S st st1 mgrID memID allocator bins h
    have hc : CursorInv mgrID
        (finalCursor S mgrID (allocator memID (computeSizes S bins).memorySize).1 bins) :=
      foldl_initBin_inv mgrID bins _ ⟨by simp, U32_MOD_pos, by simp⟩
    rw [slot?_eq_some] at hb
    exact (hc.written i b hb.2).1
  · intro st st1 portNum s ret h
    obtain ⟨hn, hcase⟩ := acquire_step st st1 portNum s ret h
    refine ⟨hn, ?_⟩
    rcases hcase with he | ⟨i, b, hi, hb, ha, he⟩
    · have hs := hsame st st1 hn he
      refine ⟨⟨0, fun j _ => hs j⟩, fun j => by rw [hs j], ?_⟩
      intro j b b1 hb hb1 hne
      rw [hs j, hb] at hb1
      cases hb1
      exact absurd rfl hne
    · have hs := slot?_set st st1 i b _ hn hi hb he
      have hbi : slot? st i = some b := (slot?_eq_some st i b).2 ⟨hi, hb⟩
      refine ⟨⟨i, fun j hj => by rw [hs j, if_neg hj]⟩, ?_, ?_⟩
      · intro j
        rw [hs j]
        split
        · rename_i hji; subst hji; rw [hbi]; rfl
        · rfl
      · intro j c c1 hc hc1 hne
        rw [hs j] at hc1
        split at hc1
        · rename_i hji
          subst hji
          rw [hbi] at hc
          cases hc
          cases hc1
          exact ⟨ha, rfl⟩
        · rw [hc] at hc1
          cases hc1
          exact absurd rfl hne
  · intro st st1 portNum fw h
    obtain ⟨hn, hcase⟩ := release_step st st1 portNum fw h
    refine ⟨hn, ?_⟩
    rcases hcase with he | ⟨i, b, hi, hb, ha, he⟩
    · have hs := hsame st st1 hn he
      refine ⟨⟨0, fun j _ => hs j⟩, fun j => by rw [hs j], ?_⟩
      intro j b b1 hb hb1 hne
      rw [hs j, hb] at hb1
      cases hb1
      exact absurd rfl hne
    · have hs := slot?_set st st1 i b _ hn hi hb he
      have hbi : slot? st i = some b := (slot?_eq_some st i b).2 ⟨hi, hb⟩
      refine ⟨⟨i, fun j hj => by rw [hs j, if_neg hj]⟩, ?_, ?_⟩
      · intro j
        rw [hs j]
        split
        · rename_i hji; subst hji; rw [hbi]; rfl
        · rfl
      · intro j c c1 hc hc1 hne
        rw [hs j] at hc1
        split at hc1
        · rename_i hji
          subst hji
          rw [hbi] at hc
          cases hc
          cases hc1
          exact ⟨ha, rfl⟩
        · rw [hc] at hc1
          cases hc1
          exact absurd rfl hne

theorem slot_state_machine_witness :
    setup 40 construct 7 0 (fixedAllocator 1000) exampleBins = .done examplePool ()
    ∧ (∀ i b, slot? examplePool i = some b → b.allocated = false)
    ∧ bufferGetCallee_handler examplePool1 0 5 = .done examplePool2 ⟨7, 1, 1208, 8⟩
    ∧ examplePool2.m_numStructs = examplePool1.m_numStructs
    ∧ (∃ i, ∀ j, j ≠ i → slot? examplePool2 j = slot? examplePool1 j)
    ∧ bufferSendIn_handler examplePool2 0 ⟨7, 0, 1200, 3⟩ = .done examplePool3 ()
    ∧ examplePool3.m_numStructs = examplePool2.m_numStructs
    ∧ (∃ i, ∀ j, j ≠ i → slot? examplePool3 j = slot? examplePool2 j) :=
  ⟨by decide,
    slot_state_machine.1 40 7 0 (fixedAllocator 1000) exampleBins construct examplePool
      (by decide),
    by decide,
    (slot_state_machine.2.1 examplePool1 examplePool2 0 5 ⟨7, 1, 1208, 8⟩ (by decide)).1,
    (slot_state_machine.2.1 examplePool1 examplePool2 0 5 ⟨7, 1, 1208, 8⟩ (by decide)).2.1,
    by decide,
    (slot_state_machine.2.2 examplePool2 examplePool3 0 ⟨7, 0, 1200, 3⟩ (by decide)).1,
    (slot_state_machine.2.2 examplePool2 examplePool3 0 ⟨7, 0, 1200, 3⟩ (by decide)).2.1⟩

/-- C20: in every state reached from a freshly constructed component by one
`setup` and handler calls that returned,
`m_currBuffs ≤ m_highWater ≤ m_numStructs` (and `m_numStructs` fits 32 bits);
so a call of `bufferSendIn_handler` that takes a buffer back finds
`m_currBuffs ≥ 1` and its 32-bit decrement yields `m_currBuffs - 1` without
wrapping, and a call of `bufferGetCallee_handler` that hands a buffer out
yields `m_currBuffs + 1`, below `2^32`, without wrapping. -/
theorem counter_bounds (st : BufferManagerComponentImpl) (hst : Reachable st) :
    st.m_currBuffs ≤ st.m_highWater ∧ st.m_highWater ≤ st.m_numStructs
    ∧ st.m_numStructs < U32_MOD
    ∧ (∀ (portNum : Int) (fw : Fw.Buffer) (st1 : BufferManagerComponentImpl),
        fw.size ≠ 0 → bufferSendIn_handler st portNum fw = .done st1 () →
        1 ≤ st.m_currBuffs ∧ st1.m_currBuffs = st.m_currBuffs - 1)
    ∧ (∀ (portNum : Int) (s : Nat) (st1 : BufferManagerComponentImpl) (h : Fw.Buffer),
        bufferGetCallee_handler st portNum s = .done st1 h → h ≠ Fw.Buffer.empty →
        st.m_currBuffs + 1 < U32_MOD ∧ st1.m_currBuffs = st.m_currBuffs + 1) := by
  obtain ⟨hist, hrun⟩ := hst
  have hinv := run_inv st hist hrun
  obtain ⟨hb1, hb2⟩ := run_bounds st hist hrun
  refine ⟨hb1, hb2, hinv.numLt, ?_, ?_⟩
  · intro portNum fw st1 hsz h
    obtain ⟨_, hcase⟩ := release_done st st1 portNum fw h
    rcases hcase with ⟨h0, _⟩ | ⟨_, hid, _, b, hb, ha, _, _, rfl⟩
    · exact absurd h0 hsz
    · have h1 := released_count st _ b hid hb ha
      have h2 := (released_inv st _ b hinv hid hb ha).curr
      have h3 := hinv.curr
      omega
  · intro portNum s st1 h hacq hne
    obtain ⟨_, hcase⟩ := acquire_done st st1 portNum s h hacq
    rcases hcase with ⟨i, b, hf, rfl, _⟩ | ⟨_, _, rfl⟩
    · have h1 := acquired_count st s i b hf
      have h2 := (acquired_inv st s i b hinv hf).curr
      have h3 := hinv.curr
      have h4 := numAllocated_le (acquired st i b)
      have h5 : (acquired st i b).m_numStructs = st.m_numStructs := rfl
      have h6 := hinv.numLt
      omega
    · exact absurd rfl hne

theorem counter_bounds_witness :
    Reachable examplePool2
    ∧ examplePool2.m_currBuffs ≤ examplePool2.m_highWater
    ∧ examplePool2.m_highWater ≤ examplePool2.m_numStructs
    ∧ examplePool2.m_numStructs < U32_MOD
    ∧ (∀ (portNum : Int) (fw : Fw.Buffer) (st1 : BufferManagerComponentImpl),
        fw.size ≠ 0 → bufferSendIn_handler examplePool2 portNum fw = .done st1 () →
        1 ≤ examplePool2.m_currBuffs ∧ st1.m_currBuffs = examplePool2.m_currBuffs - 1)
    ∧ (∀ (portNum : Int) (s : Nat) (st1 : BufferManagerComponentImpl) (h : Fw.Buffer),
        bufferGetCallee_handler examplePool2 portNum s = .done st1 h →
        h ≠ Fw.Buffer.empty →
        examplePool2.m_currBuffs + 1 < U32_MOD
        ∧ st1.m_currBuffs = examplePool2.m_currBuffs + 1) :=
  ⟨examplePool2_reachable, counter_bounds examplePool2 examplePool2_reachable⟩

/-! ## Setup: layout and completion -/

/-- C11: after a `setup` that completed, for bins whose buffer count `N`
fits 32 bits (otherwise `setup` has written tracking structs past its
region), the slot table is exactly the table of the specification: the
capacities are, bin after bin in declaration order, `numBuffers` times
`bufferSize`; there are `N` slots with ids `0..N-1`; slot `i` is unallocated,
its stored handle carries id `i`, and its memory starts at the region start
plus `N * sizeof(AllocatedBuffer)` plus the capacities of the slots before
it. So the payload ranges are ordered by id and pairwise disjoint, each
starts where the one before ends, the first starts right after the `N`
tracking structs and the last ends at the end of the region. -/
theorem setup_layout (S : Nat) (st st1 : BufferManagerComponentImpl)
    (mgrID memID : Nat) (allocator : Fw.MemAllocator) (bins : BufferBins)
    (h : setup S st mgrID memID allocator bins = .done st1 ())
    (hN : totalBuffers bins < U32_MOD) :
    st1.m_buffers = specSlotTable mgrID bins
        ((allocator memID (totalBytes S bins)).1 + totalBuffers bins * S)
    ∧ st1.m_buffers.map (fun c => c.size) = slotCapacities bins
    ∧ st1.m_numStructs = totalBuffers bins
    ∧ st1.m_buffers.length = totalBuffers bins
    ∧ (∀ i b, slot? st1 i = some b →
        b.allocated = false ∧ b.buff.bufferID = i
        ∧ b.memory = (allocator memID (totalBytes S bins)).1 + totalBuffers bins * S
            + ((st1.m_buffers.take i).map (fun c => c.size)).sum)
    ∧ (∀ i j bi bj, i < j → slot? st1 i = some bi → slot? st1 j = some bj →
        bi.memory + bi.size ≤ bj.memory)
    ∧ (∀ i bi bj, slot? st1 i = some bi → slot? st1 (i + 1) = some bj →
        bj.memory = bi.memory + bi.size)
    ∧ (∀ i b, slot? st1 i = some b → i + 1 = totalBuffers bins →
        b.memory + b.size = (allocator memID (totalBytes S bins)).1 + totalBytes S bins) := by
  obtain ⟨_, hns, _, hbuf⟩ := setup_done_layout S st st1 mgrID memID allocator bins h hN
  have hsize : st1.m_buffers.map (fun c => c.size) = slotCapacities bins := by
    rw [hbuf, specSlotTable, specSlots_size]
  have hslot : ∀ i b, slot? st1 i = some b →
      b.allocated = false ∧ b.buff.bufferID = i
      ∧ b.memory = (allocator memID (totalBytes S bins)).1 + totalBuffers bins * S
          + ((slotCapacities bins).take i).sum
      ∧ (slotCapacities bins)[i]? = some b.size := by
    intro i b hb
    rw [slot?_eq_some, hbuf] at hb
    obtain ⟨h1, h2, h3, h4⟩ := specSlots_getElem? mgrID _ 0 _ i b hb.2
    exact ⟨h1, by omega, h3, h4⟩
  refine ⟨hbuf, hsize, hns, ?_, ?_, ?_, ?_, ?_⟩
  · rw [hbuf, specSlotTable, specSlots_length, slotCapacities_length]
  · intro i b hb
    obtain ⟨h1, h2, h3, _⟩ := hslot i b hb
    refine ⟨h1, h2, ?_⟩
    rw [List.map_take, hsize]
    exact h3
  · intro i j bi bj hij hbi hbj
    obtain ⟨_, _, h3, h4⟩ := hslot i bi hbi
    obtain ⟨_, _, k3, _⟩ := hslot j bj hbj
    have h5 := sum_take_succ _ i bi.size h4
    have h6 := sum_take_le (slotCapacities bins) (i + 1) j (by omega)
    omega
  · intro i bi bj hbi hbj
    obtain ⟨_, _, h3, h4⟩ := hslot i bi hbi
    obtain ⟨_, _, k3, _⟩ := hslot (i + 1) bj hbj
    have h5 := sum_take_succ _ i bi.size h4
    omega
  · intro i b hb hlast
    obtain ⟨_, _, h3, h4⟩ := hslot i b hb
    have h5 := sum_take_succ _ i b.size h4
    have h6 : (slotCapacities bins).take (i + 1) = slotCapacities bins := by
      apply List.take_of_length_le
      rw [slotCapacities_length]
      omega
    rw [h6, slotCapacities_sum] at h5
    have h7 := totalBytes_eq S bins
    omega

theorem setup_layout_witness :
    setup 40 construct 7 0 (fixedAllocator 1000) exampleBins = .done examplePool ()
    ∧ totalBuffers exampleBins < U32_MOD
    ∧ examplePool.m_buffers = specSlotTable 7 exampleBins (1000 + 5 * 40)
    ∧ examplePool.m_buffers.map (fun c => c.size) = [8, 8, 16, 16, 16]
    ∧ examplePool.m_buffers.map (fun c => c.memory) = [1200, 1208, 1216, 1232, 1248]
    ∧ (∀ i j bi bj, i < j → slot? examplePool i = some bi → slot? examplePool j = some bj →
        bi.memory + bi.size ≤ bj.memory) :=
  ⟨by decide, by decide,
    (setup_layout 40 construct examplePool 7 0 (fixedAllocator 1000) exampleBins (by decide)
      (by decide)).1,
    by decide, by decide,
    (setup_layout 40 construct examplePool 7 0 (fixedAllocator 1000) exampleBins (by decide)
      (by decide)).2.2.2.2.2.1⟩

/-- C18: for every bin configuration whose totals fit the 32-bit unsigned
word (the number of buffers, and the payload bytes plus the bytes of the
tracking structs), `setup`, on a freshly constructed component as on any
other, completes without a failed assertion if and only if the allocator
returns a non-null region and leaves the size as requested. The two checks
at the end of `setup` hold for every region start: the final payload address
is the region start plus `memorySize`, and the number of structs written is
`m_numStructs`. When `setup` completes, `m_setup` is true. -/
theorem setup_completes_iff (S : Nat) (st : BufferManagerComponentImpl)
    (mgrID memID : Nat) (allocator : Fw.MemAllocator) (bins : BufferBins)
    (hN : totalBuffers bins < U32_MOD) (hB : totalBytes S bins < U32_MOD) :
    ((∃ st1, setup S st mgrID memID allocator bins = .done st1 ())
      ↔ ((allocator memID (totalBytes S bins)).1 ≠ 0
          ∧ (allocator memID (totalBytes S bins)).2 = totalBytes S bins))
    ∧ (∀ memory : Nat,
        (finalCursor S mgrID memory bins).bufferMem
            = memory + (computeSizes S bins).memorySize
        ∧ (finalCursor S mgrID memory bins).currStruct = (computeSizes S bins).numStructs)
    ∧ (∀ st1, setup S st mgrID memID allocator bins = .done st1 () → st1.m_setup = true) := by
  have hsz := computeSizes_eq S bins
  have hms : (computeSizes S bins).memorySize = totalBytes S bins := by
    rw [hsz]; exact Nat.mod_eq_of_lt hB
  have hns : (computeSizes S bins).numStructs = totalBuffers bins := by
    rw [hsz]; exact Nat.mod_eq_of_lt hN
  have hchecks : ∀ memory : Nat,
      (finalCursor S mgrID memory bins).bufferMem
          = memory + (computeSizes S bins).memorySize
      ∧ (finalCursor S mgrID memory bins).currStruct = (computeSizes S bins).numStructs := by
    intro memory
    rw [finalCursor_closed S mgrID memory bins hN, hms, hns]
    have := totalBytes_eq S bins
    exact ⟨by show memory + totalBuffers bins * S + payloadBytes bins = _; omega, rfl⟩
  refine ⟨⟨?_, ?_⟩, hchecks, ?_⟩
  · rintro ⟨st1, h⟩
    obtain ⟨a1, a2, _, _, _⟩ := setup_done S st st1 mgrID memID allocator bins h
    rw [hms] at a1 a2
    exact ⟨a1, a2.symm⟩
  · rintro ⟨a1, a2⟩
    apply setup_completes S st mgrID memID allocator bins
    · rw [hms]; exact a1
    · rw [hms]; exact a2.symm
    · exact (hchecks _).1
    · exact (hchecks _).2
  · intro st1 h
    obtain ⟨_, _, _, _, rfl⟩ := setup_done S st st1 mgrID memID allocator bins h
    rfl

theorem setup_completes_iff_witness :
    totalBuffers exampleBins < U32_MOD ∧ totalBytes 40 exampleBins < U32_MOD
    ∧ ((∃ st1, setup 40 construct 7 0 (fixedAllocator 1000) exampleBins = .done st1 ())
      ↔ ((fixedAllocator 1000 0 (totalBytes 40 exampleBins)).1 ≠ 0
          ∧ (fixedAllocator 1000 0 (totalBytes 40 exampleBins)).2
              = totalBytes 40 exampleBins))
    ∧ ((∃ st1, setup 40 construct 7 0 (fixedAllocator 0) exampleBins = .done st1 ())
      ↔ ((fixedAllocator 0 0 (totalBytes 40 exampleBins)).1 ≠ 0
          ∧ (fixedAllocator 0 0 (totalBytes 40 exampleBins)).2
              = totalBytes 40 exampleBins)) :=
  ⟨by decide, by decide,
    (setup_completes_iff 40 construct 7 0 (fixedAllocator 1000) exampleBins (by decide)
      (by decide)).1,
    (setup_completes_iff 40 construct 7 0 (fixedAllocator 0) exampleBins (by decide)
      (by decide)).1⟩

/-! ## First fit and best fit -/

/-- C17: if the bins with a non-zero count were declared in ascending order
of `bufferSize` (`m_bufferBins` holds the bins given to `setup`; their buffer
count fits 32 bits), then in every set-up pool state a non-empty handle
returned by `bufferGetCallee_handler` for size `s` names a slot whose
capacity is the smallest among the unallocated slots of capacity greater
than `s`. The allocator does not sort: on the pool set up with the bins
`[(16,1),(8,1)]` a request of size 5 returns the slot of capacity 16, while
the unallocated slot of capacity 8 would do. -/
theorem first_fit_is_best_fit_when_ascending :
    (∀ (st st1 : BufferManagerComponentImpl) (portNum : Int) (s : Nat) (h : Fw.Buffer),
      Reachable st → ascendingBins st.m_bufferBins →
      totalBuffers st.m_bufferBins < U32_MOD →
      bufferGetCallee_handler st portNum s = .done st1 h → h ≠ Fw.Buffer.empty →
      ∃ b, slot? st h.bufferID = some b ∧ b.size = h.size
        ∧ ∀ j c, slot? st j = some c → c.allocated = false → s < c.size →
            b.size ≤ c.size)
    ∧ (Reachable unsortedPool ∧ unsortedPool.m_bufferBins = unsortedBins
      ∧ ¬ ascendingBins unsortedBins
      ∧ ∃ st1 h b c, bufferGetCallee_handler unsortedPool 0 5 = .done st1 h
          ∧ slot? unsortedPool h.bufferID = some b ∧ b.size = 16
          ∧ slot? unsortedPool 1 = some c ∧ c.allocated = false ∧ 5 < c.size
          ∧ c.size < b.size) := by
  constructor
  · intro st st1 portNum s h hst hasc hN hacq hne
    obtain ⟨hist, hrun⟩ := hst
    have hinv := run_inv st hist hrun
    obtain ⟨_, hcaps⟩ := run_capacities st hist hrun hN
    have hsorted := slotCapacities_sorted _ hasc
    rw [← hcaps] at hsorted
    obtain ⟨_, hcase⟩ := acquire_done st st1 portNum s h hacq
    rcases hcase with ⟨i, b, hf, _, rfl⟩ | ⟨_, _, rfl⟩
    · obtain ⟨_, hi, hb, _, _, hmin⟩ := findBuffer_some _ _ _ _ _ _ hf
      obtain ⟨e1, _, _, e4⟩ := hinv.handle i b hb
      refine ⟨b, ?_, e4.symm, ?_⟩
      · rw [e1, slot?_eq_some]; exact ⟨by omega, hb⟩
      · intro j c hc hca hcs
        rw [slot?_eq_some] at hc
        have hij : i ≤ j := by
          by_contra hlt
          exact hmin j c (Nat.zero_le _) (by omega) hc.2 ⟨hca, hcs⟩
        rcases Nat.eq_or_lt_of_le hij with rfl | hlt
        · rw [hb] at hc
          obtain ⟨_, hc2⟩ := hc
          cases hc2
          exact le_refl _
        · have hbi : (st.m_buffers.map (fun c => c.size))[i]? = some b.size := by
            rw [List.getElem?_map, hb]; rfl
          have hcj : (st.m_buffers.map (fun c => c.size))[j]? = some c.size := by
            rw [List.getElem?_map, hc.2]; rfl
          obtain ⟨hi2, hbi2⟩ := List.getElem?_eq_some.1 hbi
          obtain ⟨hj2, hcj2⟩ := List.getElem?_eq_some.1 hcj
          have := List.pairwise_iff_getElem.1 hsorted i j hi2 hj2 hlt
          rw [hbi2, hcj2] at this
          exact this
    · exact absurd rfl hne
  · refine ⟨⟨_, Run.setup 40 7 0 (fixedAllocator 1000) unsortedBins unsortedPool
      (by decide)⟩, by decide, ?_, ?_⟩
    · simp [ascendingBins, unsortedBins]
    · exact ⟨(bufferGetCallee_handler unsortedPool 0 5).state, ⟨7, 0, 1080, 16⟩,
        ⟨⟨7, 0, 1080, 16⟩, 1080, 16, false⟩, ⟨⟨7, 1, 1096, 8⟩, 1096, 8, false⟩,
        by decide, by decide, by decide, by decide, by decide, by decide, by decide⟩

theorem first_fit_is_best_fit_when_ascending_witness :
    Reachable examplePool2 ∧ ascendingBins examplePool2.m_bufferBins
    ∧ totalBuffers examplePool2.m_bufferBins < U32_MOD
    ∧ bufferGetCallee_handler examplePool2 0 5
        = .done (bufferGetCallee_handler examplePool2 0 5).state ⟨7, 2, 1216, 16⟩
    ∧ (⟨7, 2, 1216, 16⟩ : Fw.Buffer) ≠ Fw.Buffer.empty
    ∧ ∃ b, slot? examplePool2 (⟨7, 2, 1216, 16⟩ : Fw.Buffer).bufferID = some b
        ∧ b.size = (⟨7, 2, 1216, 16⟩ : Fw.Buffer).size
        ∧ ∀ j c, slot? examplePool2 j = some c → c.allocated = false → 5 < c.size →
            b.size ≤ c.size :=
  have hasc : ascendingBins examplePool2.m_bufferBins := by
    have hb : examplePool2.m_bufferBins = exampleBins := by decide
    rw [hb]
    simp [ascendingBins, exampleBins]
  ⟨examplePool2_reachable, hasc, by decide, by decide, by decide,
    first_fit_is_best_fit_when_ascending.1 examplePool2
      (bufferGetCallee_handler examplePool2 0 5).state 0 5 ⟨7, 2, 1216, 16⟩
      examplePool2_reachable hasc (by decide) (by decide) (by decide)⟩

end Svc
